import Mathlib

/-!
Verification of the skein model layer (`src/skein/model.py`).

The Python entities are embedded shallowly:

* Python runtime values that can be passed to constructors or appear in
  mapping inputs are modelled by the inductive type `Val` (None, ints,
  floats, strings, lists, dicts, entity instances, datetimes, and the
  repository's `required` sentinel).  Mapping keys are restricted to
  strings (the only keys the entities' field sets can accept).
* Python floats are carried opaquely (an integer tag); no arithmetic is
  performed on them in the source, only `isinstance(x, float)` checks and
  structural equality.  IEEE behaviour such as NaN self-inequality is
  outside this model.
* `datetime` values are modelled by their naive wall-clock reading as
  integer milliseconds since the epoch (`_EPOCH = datetime(1970, 1, 1)`).
  The local timezone is modelled as a fixed UTC offset in milliseconds;
  CPython's naive `datetime.timestamp()` then returns
  `(millis - offset) / 1000` seconds.
* Fallible Python code (raising TypeError/ValueError/KeyError) is embedded
  with `Except Err`.  The `Err` constructors record which check fired and
  what it names, mirroring the message contents of the source.
* Each entity's `__init__` is embedded as `init`, running the
  `_check_required` and `_validate` checks in the source's exact order and
  producing a typed record on success; `validate` re-runs `_validate` on an
  already-typed record (used by the `to_*` conversions, which re-validate).
-/

deriving instance DecidableEq for Except

/-- Errors raised by the model layer.  Each constructor corresponds to one
`raise` site family in `src/skein/model.py` and records the names the
message interpolates. -/
inductive Err where
  /-- `_check_is_type` / `_check_is_list_of` / `_check_is_dict_of` failures
  (TypeError), recording the field and the expected type description. -/
  | typeErr (field expected : String)
  /-- `_check_is_bounded_int`: value below the minimum (ValueError). -/
  | boundErr (field : String) (min : Int)
  /-- `_check_in_set`: value outside the enumerated set (ValueError). -/
  | inSetErr (field : String)
  /-- `_check_required`: a field still holds the `required` sentinel. -/
  | requiredErr (field : String)
  /-- `_check_keys`: unknown extra keys, all reported in one error. -/
  | unknownKeys (cls : String) (extra : List String)
  /-- `_check_keys` on a non-mapping input ("Expected mapping for %r"). -/
  | notMapping (cls : String)
  /-- Python `KeyError` from a mandatory subscript `obj[k]`. -/
  | keyErr (k : String)
  /-- emptiness errors ("There must be at least one command/service"). -/
  | emptyErr (what : String)
  /-- `_parse_file_spec`: "Both 'archive' and 'file' specified". -/
  | bothFileArchive
  /-- wire constructor: an enum name string with no corresponding code. -/
  | enumErr (s : String)
  /-- wire reader: an enum code with no corresponding name. -/
  | badEnumCode (n : Int)
  deriving DecidableEq, Repr

/-- Resource requests per container (`class Resources`), after successful
construction: both fields hold Python ints. -/
structure Resources where
  memory : Int
  vcores : Int
  deriving DecidableEq, Repr

/-- A file/archive to distribute (`class File`), after successful
construction. -/
structure File where
  source : String
  type : String
  visibility : String
  size : Int
  timestamp : Int
  deriving DecidableEq, Repr

/-- A skein service (`class Service`), after successful construction.
Python dicts are modelled as association lists in insertion order. -/
structure Service where
  commands : List String
  resources : Resources
  instances : Int
  files : List (String × File)
  env : List (String × String)
  depends : List String
  deriving DecidableEq, Repr

/-- A skein job (`class Job`), after successful construction.  `queue` is
nullable (`_check_is_type('queue', str, nullable=True)`). -/
structure Job where
  name : String
  queue : Option String
  services : List (String × Service)
  deriving DecidableEq, Repr

/-- `class ResourceUsageReport`, after successful construction. -/
structure ResourceUsageReport where
  memory_seconds : Int
  vcore_seconds : Int
  num_used_containers : Int
  needed_resources : Resources
  reserved_resources : Resources
  used_resources : Resources
  deriving DecidableEq, Repr

/-- `class ApplicationReport`, after successful construction.  The two
datetimes are stored as naive wall-clock milliseconds since `_EPOCH`; the
float `progress` is an opaque payload. -/
structure ApplicationReport where
  id : String
  name : String
  user : String
  queue : String
  tags : List String
  host : Option String
  port : Option Int
  tracking_url : Option String
  state : String
  final_status : String
  progress : Int
  usage : ResourceUsageReport
  diagnostics : Option String
  start_time : Int
  finish_time : Int
  deriving DecidableEq, Repr

/-- A dynamic Python value, as passed to constructors and appearing in
mapping inputs.  `req` is the module's `required` sentinel; `float`
carries an opaque payload; `datetime` carries naive wall-clock
milliseconds since the epoch. -/
inductive Val where
  | req
  | none
  | int (n : Int)
  | float (payload : Int)
  | str (s : String)
  | list (xs : List Val)
  | dict (xs : List (String × Val))
  | res (r : Resources)
  | file (f : File)
  | service (s : Service)
  | rur (u : ResourceUsageReport)
  | datetime (millis : Int)

/-- `obj.get(k)` on a mapping: the value stored at the first matching key
(Python dicts have unique keys). -/
def dget (m : List (String × Val)) (k : String) : Option Val :=
  (m.find? (fun p => p.1 == k)).map (fun p => p.2)

/-- The keys of a mapping that are not in the allowed set
(`set(obj).difference(keys)` of `Base._check_keys`). -/
def extra_keys (m : List (String × Val)) (allowed : List String) : List String :=
  (m.map (fun p => p.1)).filter (fun k => decide (¬ k ∈ allowed))

/-- `Base._check_keys`: reject non-mappings, and reject any mapping
containing keys outside the allowed set, naming all offending keys in one
error.  Returns the underlying association list on success. -/
def check_keys (cls : String) (v : Val) (allowed : List String) :
    Except Err (List (String × Val)) :=
  match v with
  | Val.dict m =>
      match extra_keys m allowed with
      | [] => Except.ok m
      | ks => Except.error (Err.unknownKeys cls ks)
  | _ => Except.error (Err.notMapping cls)

/-- `Base._check_required` for one field: the assigned value must not be
the `required` sentinel. -/
def check_required (field : String) (v : Val) : Except Err Unit :=
  match v with
  | Val.req => Except.error (Err.requiredErr field)
  | _ => Except.ok ()

/-- `_check_is_type(field, str)` plus extraction of the string. -/
def as_str (field : String) (v : Val) : Except Err String :=
  match v with
  | Val.str s => Except.ok s
  | _ => Except.error (Err.typeErr field "str")

/-- `_check_is_type(field, str, nullable=True)` plus extraction. -/
def as_str_opt (field : String) (v : Val) : Except Err (Option String) :=
  match v with
  | Val.str s => Except.ok (some s)
  | Val.none => Except.ok Option.none
  | _ => Except.error (Err.typeErr field "str")

/-- `_check_is_type(field, int, nullable=True)` plus extraction. -/
def as_int_opt (field : String) (v : Val) : Except Err (Option Int) :=
  match v with
  | Val.int n => Except.ok (some n)
  | Val.none => Except.ok Option.none
  | _ => Except.error (Err.typeErr field "int")

/-- `_check_is_bounded_int(field, min)` plus extraction: int type check
first (TypeError), then the minimum bound (ValueError). -/
def as_bounded_int (field : String) (min : Int) (v : Val) : Except Err Int :=
  match v with
  | Val.int n => if n < min then Except.error (Err.boundErr field min) else Except.ok n
  | _ => Except.error (Err.typeErr field "int")

/-- `_check_is_bounded_int` on an already-typed int (as re-run by
`_validate` on a constructed entity). -/
def check_bounded (field : String) (min n : Int) : Except Err Unit :=
  if n < min then Except.error (Err.boundErr field min) else Except.ok ()

/-- `_check_in_set(field, values)` plus extraction; a value of any other
type is simply not in the (string) set, so the same ValueError fires. -/
def check_in_set (field : String) (values : List String) (v : Val) :
    Except Err String :=
  match v with
  | Val.str s => if s ∈ values then Except.ok s else Except.error (Err.inSetErr field)
  | _ => Except.error (Err.inSetErr field)

/-- `_check_in_set` on an already-typed string. -/
def check_in_set_str (field : String) (values : List String) (s : String) :
    Except Err Unit :=
  if s ∈ values then Except.ok () else Except.error (Err.inSetErr field)

/-- `is_list_of(x, str)` element extraction. -/
def str_elems (field : String) : List Val → Except Err (List String)
  | [] => Except.ok []
  | Val.str s :: rest => (str_elems field rest).map (fun xs => s :: xs)
  | _ :: _ => Except.error (Err.typeErr field "list of str")

/-- `_check_is_list_of(field, str)` plus extraction. -/
def as_str_list (field : String) (v : Val) : Except Err (List String) :=
  match v with
  | Val.list xs => str_elems field xs
  | _ => Except.error (Err.typeErr field "list of str")

/-- `is_dict_of(x, str, str)` value extraction (keys are strings by the
model's construction). -/
def str_val_pairs (field : String) :
    List (String × Val) → Except Err (List (String × String))
  | [] => Except.ok []
  | (k, Val.str s) :: rest => (str_val_pairs field rest).map (fun xs => (k, s) :: xs)
  | _ :: _ => Except.error (Err.typeErr field "dict of str -> str")

/-- `_check_is_dict_of(field, str, str)` plus extraction. -/
def as_str_dict (field : String) (v : Val) : Except Err (List (String × String)) :=
  match v with
  | Val.dict xs => str_val_pairs field xs
  | _ => Except.error (Err.typeErr field "dict of str -> str")

/-- `is_dict_of(x, str, File)` value extraction. -/
def file_val_pairs (field : String) :
    List (String × Val) → Except Err (List (String × File))
  | [] => Except.ok []
  | (k, Val.file f) :: rest => (file_val_pairs field rest).map (fun xs => (k, f) :: xs)
  | _ :: _ => Except.error (Err.typeErr field "dict of str -> File")

/-- `_check_is_dict_of(field, str, File)` plus extraction. -/
def as_file_dict (field : String) (v : Val) : Except Err (List (String × File)) :=
  match v with
  | Val.dict xs => file_val_pairs field xs
  | _ => Except.error (Err.typeErr field "dict of str -> File")

/-- `is_dict_of(x, str, Service)` value extraction. -/
def service_val_pairs (field : String) :
    List (String × Val) → Except Err (List (String × Service))
  | [] => Except.ok []
  | (k, Val.service s) :: rest =>
      (service_val_pairs field rest).map (fun xs => (k, s) :: xs)
  | _ :: _ => Except.error (Err.typeErr field "dict of str -> Service")

/-- `_check_is_dict_of(field, str, Service)` plus extraction. -/
def as_service_dict (field : String) (v : Val) :
    Except Err (List (String × Service)) :=
  match v with
  | Val.dict xs => service_val_pairs field xs
  | _ => Except.error (Err.typeErr field "dict of str -> Service")

/-- `_check_is_type(field, Resources)` plus extraction. -/
def as_resources (field : String) (v : Val) : Except Err Resources :=
  match v with
  | Val.res r => Except.ok r
  | _ => Except.error (Err.typeErr field "Resources")

/-! ## Resources (`class Resources`) -/

def Resources.slots : List String := ["memory", "vcores"]

/-- `Resources._validate(is_request)`: `min = 1 if is_request else 0`, then
bounded-int checks in source order (`vcores` first, then `memory`). -/
def Resources.validate (is_request : Bool) (r : Resources) : Except Err Unit := do
  let min : Int := if is_request then 1 else 0
  check_bounded "vcores" min r.vcores
  check_bounded "memory" min r.memory

/-- `Resources.__init__(memory=required, vcores=required)`: assign, then
`_check_required` in slot order, then `_validate()` (request rules off). -/
def Resources.init (memory vcores : Val) : Except Err Resources := do
  check_required "memory" memory
  check_required "vcores" vcores
  let vc ← as_bounded_int "vcores" 0 vcores
  let mem ← as_bounded_int "memory" 0 memory
  Except.ok ⟨mem, vc⟩

/-- `Base.from_dict` as inherited by `Resources`: `_check_keys` then
`cls(**obj)`, missing keys falling back to the constructor defaults
(the `required` sentinel for both fields). -/
def Resources.from_dict (v : Val) : Except Err Resources := do
  let m ← check_keys "Resources" v Resources.slots
  Resources.init ((dget m "memory").getD Val.req) ((dget m "vcores").getD Val.req)

/-- Modelled from the spec: the wire message for `Resources`
(`skein.proto.Resources`, generated protobuf code not under `src/`).
Field names correspond 1:1; both fields are integers on the wire. -/
structure ResourcesMsg where
  memory : Int
  vcores : Int
  deriving DecidableEq, Repr

/-- `Base.to_protobuf` as inherited by `Resources`: re-validate, then build
the wire message field-by-field. -/
def Resources.to_protobuf (r : Resources) : Except Err ResourcesMsg := do
  r.validate false
  Except.ok ⟨r.memory, r.vcores⟩

/-- `Base.from_protobuf` as inherited by `Resources`: extract each slot
from the message and invoke the constructor (which validates). -/
def Resources.from_protobuf (msg : ResourcesMsg) : Except Err Resources :=
  Resources.init (Val.int msg.memory) (Val.int msg.vcores)

/-! ## File (`class File`) -/

def File.slots : List String :=
  ["source", "type", "visibility", "size", "timestamp"]

/-- Modelled from the spec: the wire enum `File.Type` (generated protobuf
code not under `src/`).  The spec fixes only that enum fields are integer
codes externally and canonical uppercase strings internally; the code
assignment is one faithful choice. -/
def fileTypeValue : String → Option Int
  | "FILE" => some 0
  | "ARCHIVE" => some 1
  | _ => Option.none

/-- Modelled from the spec: `File.Type.Name`, the code-to-name direction. -/
def fileTypeName : Int → Option String
  | 0 => some "FILE"
  | 1 => some "ARCHIVE"
  | _ => Option.none

/-- Modelled from the spec: the wire enum `File.Visibility`. -/
def fileVisibilityValue : String → Option Int
  | "APPLICATION" => some 0
  | "PUBLIC" => some 1
  | "PRIVATE" => some 2
  | _ => Option.none

/-- Modelled from the spec: `File.Visibility.Name`. -/
def fileVisibilityName : Int → Option String
  | 0 => some "APPLICATION"
  | 1 => some "PUBLIC"
  | 2 => some "PRIVATE"
  | _ => Option.none

/-- Resolution of an internal enum name string to its wire code, as the
wire message constructor performs it; an unknown name is an error. -/
def enum_code (lookup : String → Option Int) (s : String) : Except Err Int :=
  match lookup s with
  | some c => Except.ok c
  | Option.none => Except.error (Err.enumErr s)

/-- `EnumType.Name(code)`: an unknown code is an error. -/
def enum_name (lookup : Int → Option String) (c : Int) : Except Err String :=
  match lookup c with
  | some s => Except.ok s
  | Option.none => Except.error (Err.badEnumCode c)

/-- `File._validate()`: source type check (trivially satisfied on the
typed record), then the enum-membership, then the bounded ints, in source
order. -/
def File.validate (f : File) : Except Err Unit := do
  check_in_set_str "type" ["FILE", "ARCHIVE"] f.type
  check_in_set_str "visibility" ["APPLICATION", "PUBLIC", "PRIVATE"] f.visibility
  check_bounded "size" 0 f.size
  check_bounded "timestamp" 0 f.timestamp

/-- `File.__init__`: assign, `_check_required` in slot order, then
`_validate()` check-by-check in source order. -/
def File.init (source type visibility size timestamp : Val) : Except Err File := do
  check_required "source" source
  check_required "type" type
  check_required "visibility" visibility
  check_required "size" size
  check_required "timestamp" timestamp
  let src ← as_str "source" source
  let ty ← check_in_set "type" ["FILE", "ARCHIVE"] type
  let vis ← check_in_set "visibility" ["APPLICATION", "PUBLIC", "PRIVATE"] visibility
  let sz ← as_bounded_int "size" 0 size
  let ts ← as_bounded_int "timestamp" 0 timestamp
  Except.ok ⟨src, ty, vis, sz, ts⟩

/-- `Base.from_dict` as inherited by `File`, with the constructor's
signature defaults for the optional fields. -/
def File.from_dict (v : Val) : Except Err File := do
  let m ← check_keys "File" v File.slots
  File.init ((dget m "source").getD Val.req)
    ((dget m "type").getD (Val.str "FILE"))
    ((dget m "visibility").getD (Val.str "APPLICATION"))
    ((dget m "size").getD (Val.int 0))
    ((dget m "timestamp").getD (Val.int 0))

/-- Modelled from the spec: the wire message for `File`; the enum fields
hold integer codes on the wire. -/
structure FileMsg where
  source : String
  type : Int
  visibility : Int
  size : Int
  timestamp : Int
  deriving DecidableEq, Repr

/-- `Base.to_protobuf` as inherited by `File`: re-validate, convert each
slot (the enum name strings are resolved to codes by the wire
constructor). -/
def File.to_protobuf (f : File) : Except Err FileMsg := do
  f.validate
  let tc ← enum_code fileTypeValue f.type
  let vc ← enum_code fileVisibilityValue f.visibility
  Except.ok ⟨f.source, tc, vc, f.size, f.timestamp⟩

/-- `File.from_protobuf`: translate the enum codes back to names
(`_proto.File.Type.Name` / `.Visibility.Name`) and invoke the
constructor. -/
def File.from_protobuf (msg : FileMsg) : Except Err File := do
  let tn ← enum_name fileTypeName msg.type
  let vn ← enum_name fileVisibilityName msg.visibility
  File.init (Val.str msg.source) (Val.str tn) (Val.str vn)
    (Val.int msg.size) (Val.int msg.timestamp)

/-! ## URL and path helpers

`urlparse` and `os.path.split` are external collaborators of the model
layer (CPython stdlib); they are embedded here following CPython's
documented behaviour, on character lists. -/

/-- Split a character list at the first occurrence of `c` (absent: none). -/
def break_at (c : Char) : List Char → Option (List Char × List Char)
  | [] => Option.none
  | x :: xs =>
      if x = c then some ([], xs)
      else (break_at c xs).map (fun p => (x :: p.1, p.2))

/-- Everything before the first occurrence of `c` (the whole list if
absent): `url.split(c, 1)[0]`. -/
def take_before (c : Char) (cs : List Char) : List Char :=
  match break_at c cs with
  | some (pre, _) => pre
  | Option.none => cs

/-- Split at the last occurrence of `c` (absent: none). -/
def last_split (c : Char) : List Char → Option (List Char × List Char)
  | [] => Option.none
  | x :: xs =>
      match last_split c xs with
      | some (b, a) => some (x :: b, a)
      | Option.none => if x = c then some ([], xs) else Option.none

/-- CPython `scheme_chars`: letters, digits, `+`, `-`, `.`. -/
def is_scheme_char (c : Char) : Bool :=
  c.isAlphanum || c = '+' || c = '-' || c = '.'

/-- `urlsplit` scheme handling: a `:` with a nonempty prefix that starts
with a letter and consists of scheme characters strips the (lowercased)
scheme; otherwise the url is untouched. -/
def split_scheme (cs : List Char) : String × List Char :=
  match break_at ':' cs with
  | some (pre, rest) =>
      (match pre with
       | [] => ("", cs)
       | c :: cs2 =>
           if c.isAlpha && (c :: cs2).all is_scheme_char then
             (⟨(c :: cs2).map Char.toLower⟩, rest)
           else ("", cs))
  | Option.none => ("", cs)

/-- `urlsplit` netloc handling: after `//`, the netloc extends to the next
`/`, `?` or `#`; the remainder (starting at that delimiter) is kept. -/
def from_delim : List Char → List Char
  | [] => []
  | c :: cs => if c = '/' ∨ c = '?' ∨ c = '#' then c :: cs else from_delim cs

def strip_netloc : List Char → List Char
  | '/' :: '/' :: rest => from_delim rest
  | cs => cs

/-- The schemes for which `urlparse` splits `;params` from the path
(CPython `uses_params`; note the empty scheme is included). -/
def uses_params : List String :=
  ["", "ftp", "hdl", "prospero", "http", "imap", "https", "shttp", "rtsp",
   "rtspu", "sip", "sips", "mms", "sftp", "tel"]

/-- CPython `_splitparams` on the path (called only when `;` is present):
with a `/` in the path, only a `;` at or after the last `/` splits;
otherwise the first `;` splits. -/
def split_params_path (cs : List Char) : List Char :=
  match last_split '/' cs with
  | some (before, after) =>
      (match break_at ';' after with
       | some (pre, _) => before ++ '/' :: pre
       | Option.none => cs)
  | Option.none => take_before ';' cs

/-- `urlparse(s).path`: strip scheme, netloc, fragment, query, and (for
param-using schemes) `;params`, keeping the path component. -/
def urlparse_path (s : String) : String :=
  let (scheme, rest) := split_scheme s.toList
  let rest := strip_netloc rest
  let path := take_before '?' (take_before '#' rest)
  let path :=
    if uses_params.contains scheme ∧ path.contains ';' then split_params_path path
    else path
  ⟨path⟩

/-- `posixpath.split`: head is everything up to and including the last
`/` (then right-stripped of slashes unless it is all slashes), tail is
everything after it.  The tail is always a string — never `None`. -/
def os_path_split (s : String) : String × String :=
  match last_split '/' s.toList with
  | Option.none => ("", s)
  | some (before, after) =>
      let head := before ++ ['/']
      let head := if head.all (fun c => c = '/') then head else
        (head.reverse.dropWhile (fun c => c = '/')).reverse
      (⟨head⟩, ⟨after⟩)

/-! ## File shorthand spec parsing (`File._parse_file_spec`) -/

/-- Python `str.upper()` on ASCII text, on the character list. -/
def py_upper (s : String) : String := ⟨s.toList.map Char.toUpper⟩

/-- The known archive extensions, stripped in source order
(`['.zip', '.tar.gz', '.tgz']`, first match wins): `name.endswith(ext)`
and `name[:-len(ext)]` on the character list. -/
def strip_archive_ext (name : String) : String :=
  let cs := name.toList
  if (".zip".toList).isSuffixOf cs then ⟨cs.take (cs.length - 4)⟩
  else if (".tar.gz".toList).isSuffixOf cs then ⟨cs.take (cs.length - 7)⟩
  else if (".tgz".toList).isSuffixOf cs then ⟨cs.take (cs.length - 4)⟩
  else name

/-- The tail of `File._parse_file_spec` after source and (uppercased) type
have been determined: derive `dest` when absent — note that CPython's
`os.path.split` never returns `None`, so the source's
`if name is None: raise ValueError("Distributed files must be
files/archives, not directories")` guard can never fire — then read the
optional keys and construct the `File`.

Model restriction: a `dest` value that is not a string (which Python would
only reject later, at `Service` validation, since mapping keys here are
strings) is rejected at extraction. -/
def File.parse_spec_tail (m : List (String × Val)) (source : Val) (ty : String) :
    Except Err (String × File) :=
  match dget m "dest" with
  | some dv => do
      let dest ← as_str "dest" dv
      let f ← File.init source (Val.str ty)
        ((dget m "visibility").getD (Val.str "APPLICATION"))
        ((dget m "size").getD (Val.int 0))
        ((dget m "timestamp").getD (Val.int 0))
      Except.ok (dest, f)
  | Option.none =>
      match source with
      | Val.str s0 =>
          let s := urlparse_path s0
          let name := (os_path_split s).2
          let dest := if ty = "ARCHIVE" then strip_archive_ext name else name
          do
            let f ← File.init (Val.str s) (Val.str ty)
              ((dget m "visibility").getD (Val.str "APPLICATION"))
              ((dget m "size").getD (Val.int 0))
              ((dget m "timestamp").getD (Val.int 0))
            Except.ok (dest, f)
      | _ => Except.error (Err.typeErr "source" "str")

/-- The canonical-keys branch of `_parse_file_spec` (`type is None`):
check keys against the slots plus `dest`, read `source` by subscript
(KeyError when absent), and uppercase `obj.get('type', 'FILE')` — a
non-string there has no `.upper` and is modelled as a type error. -/
def File.parse_spec_canonical (m : List (String × Val)) :
    Except Err (String × File) := do
  let _ ← check_keys "File" (Val.dict m) (File.slots ++ ["dest"])
  let source ←
    (match dget m "source" with
     | some s => Except.ok s
     | Option.none => Except.error (Err.keyErr "source"))
  let ty ←
    (match (dget m "type").getD (Val.str "FILE") with
     | Val.str t => Except.ok (py_upper t)
     | _ => Except.error (Err.typeErr "type" "str"))
  File.parse_spec_tail m source ty

/-- The shorthand branch (`'file'`/`'archive'` present as `kind`): check
keys against the reduced allowed set, read the source from the kind key
and uppercase the kind name. -/
def File.parse_spec_shorthand (m : List (String × Val)) (kind : String) :
    Except Err (String × File) := do
  let _ ← check_keys "File" (Val.dict m)
    ["visibility", "size", "timestamp", kind, "dest"]
  File.parse_spec_tail m ((dget m kind).getD Val.none) (py_upper kind)

/-- `File._parse_file_spec`: mapping check, mutually exclusive
`file`/`archive` detection, then the canonical or shorthand branch. -/
def File.parse_file_spec (v : Val) : Except Err (String × File) :=
  match v with
  | Val.dict m =>
      (match (dget m "file").isSome, (dget m "archive").isSome with
       | true, true => Except.error Err.bothFileArchive
       | true, false => File.parse_spec_shorthand m "file"
       | false, true => File.parse_spec_shorthand m "archive"
       | false, false => File.parse_spec_canonical m)
  | _ => Except.error (Err.notMapping "File")

/-! ## Service (`class Service`) -/

def Service.slots : List String :=
  ["commands", "resources", "instances", "files", "env", "depends"]

/-- The `for f in self.files.values(): f._validate()` loop. -/
def validate_files : List (String × File) → Except Err Unit
  | [] => Except.ok ()
  | (_, f) :: rest => do
      f.validate
      validate_files rest

/-- `Service._validate()`: instances bound, resources type + request-rule
re-validation, files dict + per-file validation, env dict, commands list +
non-emptiness, depends list — in source order (type-level checks are
trivially satisfied on the typed record). -/
def Service.validate (s : Service) : Except Err Unit := do
  check_bounded "instances" 0 s.instances
  s.resources.validate true
  validate_files s.files
  if s.commands.isEmpty then
    Except.error (Err.emptyErr "There must be at least one command")
  else
    Except.ok ()

/-- `Service.__init__`: `_if_none` defaults for `files`/`env`/`depends`,
assignment, `_check_required` in slot order, then `_validate()` with its
checks in source order. -/
def Service.init (commands resources instances files env depends : Val) :
    Except Err Service := do
  let files := match files with | Val.none => Val.dict [] | v => v
  let env := match env with | Val.none => Val.dict [] | v => v
  let depends := match depends with | Val.none => Val.list [] | v => v
  check_required "commands" commands
  check_required "resources" resources
  check_required "instances" instances
  check_required "files" files
  check_required "env" env
  check_required "depends" depends
  let inst ← as_bounded_int "instances" 0 instances
  let res ← as_resources "resources" resources
  res.validate true
  let fs ← as_file_dict "files" files
  validate_files fs
  let ev ← as_str_dict "env" env
  let cs ← as_str_list "commands" commands
  if cs.isEmpty then
    Except.error (Err.emptyErr "There must be at least one command")
  else do
    let ds ← as_str_list "depends" depends
    Except.ok ⟨cs, res, inst, fs, ev, ds⟩

/-- The `files` shorthand of `Service.from_dict`: a list value is parsed
spec-by-spec into `(dest, File)` pairs (`dict(File._parse_file_spec(v) for
v in files)`). -/
def parse_file_specs : List Val → Except Err (List (String × File))
  | [] => Except.ok []
  | v :: rest => do
      let p ← File.parse_file_spec v
      let ps ← parse_file_specs rest
      Except.ok (p :: ps)

/-- The `files` mapping branch of `Service.from_dict`:
`{k: File.from_dict(v) for k, v in files.items()}`. -/
def files_from_dicts : List (String × Val) → Except Err (List (String × File))
  | [] => Except.ok []
  | (k, v) :: rest => do
      let f ← File.from_dict v
      let fs ← files_from_dicts rest
      Except.ok ((k, f) :: fs)

/-- `Service.from_dict`: key check, recursive construction of `resources`
(when present and non-None), conversion of `files` given as a list
(shorthand specs) or dict (nested mappings) — any other value is passed to
the constructor untouched — and constructor invocation; `instances` is
passed only when present so the constructor default applies. -/
def Service.from_dict (v : Val) : Except Err Service := do
  let m ← check_keys "Service" v Service.slots
  let resources : Val ←
    (match (dget m "resources").getD Val.none with
     | Val.none => Except.ok Val.none
     | rv => (Resources.from_dict rv).map Val.res)
  let files : Val ←
    (match (dget m "files").getD Val.none with
     | Val.none => Except.ok Val.none
     | Val.list xs => (parse_file_specs xs).map
         (fun ps => Val.dict (ps.map (fun p => (p.1, Val.file p.2))))
     | Val.dict xs => (files_from_dicts xs).map
         (fun fs => Val.dict (fs.map (fun p => (p.1, Val.file p.2))))
     | other => Except.ok other)
  Service.init ((dget m "commands").getD Val.none) resources
    ((dget m "instances").getD (Val.int 1)) files
    ((dget m "env").getD Val.none) ((dget m "depends").getD Val.none)

/-- Modelled from the spec: the wire message for `Service` (generated
protobuf code not under `src/`); map and repeated fields are association
lists / lists in order. -/
structure ServiceMsg where
  instances : Int
  resources : ResourcesMsg
  files : List (String × FileMsg)
  env : List (String × String)
  commands : List String
  depends : List String
  deriving DecidableEq, Repr

/-- `_convert` over the `files` dict for `to_protobuf`. -/
def files_to_protobuf : List (String × File) → Except Err (List (String × FileMsg))
  | [] => Except.ok []
  | (k, f) :: rest => do
      let msg ← f.to_protobuf
      let msgs ← files_to_protobuf rest
      Except.ok ((k, msg) :: msgs)

/-- `Base.to_protobuf` as inherited by `Service`: re-validate, then convert
each field (`Resources`/`File` values via their own `to_protobuf`, which
re-validate in turn; plain lists and string dicts pass through). -/
def Service.to_protobuf (s : Service) : Except Err ServiceMsg := do
  s.validate
  let rmsg ← s.resources.to_protobuf
  let fmsgs ← files_to_protobuf s.files
  Except.ok ⟨s.instances, rmsg, fmsgs, s.env, s.commands, s.depends⟩

/-- `{k: File.from_protobuf(v) for k, v in obj.files.items()}`. -/
def files_from_protobuf : List (String × FileMsg) → Except Err (List (String × File))
  | [] => Except.ok []
  | (k, msg) :: rest => do
      let f ← File.from_protobuf msg
      let fs ← files_from_protobuf rest
      Except.ok ((k, f) :: fs)

/-- `Service.from_protobuf`: rebuild `resources` and `files`, then invoke
the constructor with the typed values. -/
def Service.from_protobuf (msg : ServiceMsg) : Except Err Service := do
  let r ← Resources.from_protobuf msg.resources
  let fs ← files_from_protobuf msg.files
  Service.init (Val.list (msg.commands.map Val.str)) (Val.res r)
    (Val.int msg.instances) (Val.dict (fs.map (fun p => (p.1, Val.file p.2))))
    (Val.dict (msg.env.map (fun p => (p.1, Val.str p.2))))
    (Val.list (msg.depends.map Val.str))

/-! ## Job (`class Job`) -/

/-- Slot order of `Job` is `('name', 'queue', 'services')`. -/
def Job.slots : List String := ["name", "queue", "services"]

/-- The `for s in self.services.values(): s._validate()` loop. -/
def validate_services : List (String × Service) → Except Err Unit
  | [] => Except.ok ()
  | (_, s) :: rest => do
      s.validate
      validate_services rest

/-- `Job._validate()`: name string, nullable queue string, services dict,
non-emptiness, then per-service validation (type-level checks are
trivially satisfied on the typed record). -/
def Job.validate (j : Job) : Except Err Unit := do
  if j.services.isEmpty then
    Except.error (Err.emptyErr "There must be at least one service")
  else
    validate_services j.services

/-- `Job.__init__(services=required, name='skein', queue='')`: assign,
`_check_required` in slot order (`name`, `queue`, `services`), then
`_validate()` check-by-check in source order. -/
def Job.init (services name queue : Val) : Except Err Job := do
  check_required "name" name
  check_required "queue" queue
  check_required "services" services
  let nm ← as_str "name" name
  let qu ← as_str_opt "queue" queue
  let svs ← as_service_dict "services" services
  if svs.isEmpty then
    Except.error (Err.emptyErr "There must be at least one service")
  else do
    validate_services svs
    Except.ok ⟨nm, qu, svs⟩

/-- `{k: Service.from_dict(v) for k, v in services.items()}`. -/
def services_from_dicts : List (String × Val) → Except Err (List (String × Service))
  | [] => Except.ok []
  | (k, v) :: rest => do
      let s ← Service.from_dict v
      let ss ← services_from_dicts rest
      Except.ok ((k, s) :: ss)

/-- `Job.from_dict`: key check; `name` and `queue` are read with
`obj.get` and passed to the constructor EXPLICITLY (a missing key becomes
`None`, overriding the constructor defaults `'skein'`/`''`); a dict-valued
`services` is converted entry-wise, any other value passes through. -/
def Job.from_dict (v : Val) : Except Err Job := do
  let m ← check_keys "Job" v Job.slots
  let services : Val ←
    (match (dget m "services").getD Val.none with
     | Val.dict xs => (services_from_dicts xs).map
         (fun ss => Val.dict (ss.map (fun p => (p.1, Val.service p.2))))
     | other => Except.ok other)
  Job.init services ((dget m "name").getD Val.none) ((dget m "queue").getD Val.none)

/-- Modelled from the spec: the wire message for `Job`.  Its `name` and
`queue` fields are plain (non-nullable) wire strings; following protobuf
semantics, a `None` passed for a field at message construction is treated
as "field not set", leaving the default `""`. -/
structure JobMsg where
  name : String
  queue : String
  services : List (String × ServiceMsg)
  deriving DecidableEq, Repr

/-- `_convert` over the `services` dict for `to_protobuf`. -/
def services_to_protobuf :
    List (String × Service) → Except Err (List (String × ServiceMsg))
  | [] => Except.ok []
  | (k, s) :: rest => do
      let msg ← s.to_protobuf
      let msgs ← services_to_protobuf rest
      Except.ok ((k, msg) :: msgs)

/-- `Base.to_protobuf` as inherited by `Job`: re-validate, convert the
services, and construct the wire message; a `None` queue is dropped by the
message constructor, leaving the wire default `""`. -/
def Job.to_protobuf (j : Job) : Except Err JobMsg := do
  j.validate
  let smsgs ← services_to_protobuf j.services
  Except.ok ⟨j.name, j.queue.getD "", smsgs⟩

/-- `{k: Service.from_protobuf(v) for k, v in obj.services.items()}`. -/
def services_from_protobuf :
    List (String × ServiceMsg) → Except Err (List (String × Service))
  | [] => Except.ok []
  | (k, msg) :: rest => do
      let s ← Service.from_protobuf msg
      let ss ← services_from_protobuf rest
      Except.ok ((k, s) :: ss)

/-- `Job.from_protobuf`: rebuild the services and invoke the constructor;
the wire `name`/`queue` are always strings. -/
def Job.from_protobuf (msg : JobMsg) : Except Err Job := do
  let ss ← services_from_protobuf msg.services
  Job.init (Val.dict (ss.map (fun p => (p.1, Val.service p.2))))
    (Val.str msg.name) (Val.str msg.queue)

/-! ## Timestamps

Naive datetimes are integers: the wall-clock reading in milliseconds since
`_EPOCH = datetime(1970, 1, 1)`.  The local timezone is a fixed UTC offset
`off` in milliseconds (local = UTC + off). -/

/-- `_datetime_from_millis(x) = _EPOCH + timedelta(milliseconds=x)`: the
naive wall-clock reading is `x` itself. -/
def datetime_from_millis (x : Int) : Int := x

/-- The `type(x) is datetime` branch of `_convert`:
`int(x.timestamp() * 1000)`.  CPython interprets the naive value as LOCAL
time, so for wall-clock millis `d` under fixed offset `off` the POSIX
timestamp is `(d - off) / 1000` seconds, i.e. `d - off` milliseconds
(exactly, so the `int()` truncation is lossless). -/
def datetime_timestamp_millis (off : Int) (d : Int) : Int := d - off

/-! ## ResourceUsageReport (`class ResourceUsageReport`) -/

/-- `_keys = tuple(_to_camel_case(k) for k in __slots__)`, evaluated. -/
def rur_keys : List String :=
  ["memorySeconds", "vcoreSeconds", "numUsedContainers",
   "neededResources", "reservedResources", "usedResources"]

/-- Python subscript `obj[k]`: KeyError when absent. -/
def getitem (m : List (String × Val)) (k : String) : Except Err Val :=
  match dget m k with
  | some v => Except.ok v
  | Option.none => Except.error (Err.keyErr k)

/-- `max(0, x)` as used on the clamped fields.  Non-int values are
collapsed to the int type error: CPython's `max` raises a TypeError for
unordered operands, and an (unmodelled) float either fails the subsequent
`isinstance(x, int)` check or — as `max(0, negative_float) == 0` — would
be clamped; float payloads carry no order in this model. -/
def py_max0 (k : String) (v : Val) : Except Err Val :=
  match v with
  | Val.int n => Except.ok (Val.int (max 0 n))
  | _ => Except.error (Err.typeErr k "int")

/-- `ResourceUsageReport._validate()`: three bounded ints, then the three
`Resources` fields type-checked and re-validated (report rules), in source
order. -/
def ResourceUsageReport.validate (u : ResourceUsageReport) : Except Err Unit := do
  check_bounded "memory_seconds" 0 u.memory_seconds
  check_bounded "vcore_seconds" 0 u.vcore_seconds
  check_bounded "num_used_containers" 0 u.num_used_containers
  u.needed_resources.validate false
  u.reserved_resources.validate false
  u.used_resources.validate false

/-- `ResourceUsageReport.__init__`: all parameters are mandatory
positionals (no `required` sentinel); assign then `_validate()`. -/
def ResourceUsageReport.init
    (memory_seconds vcore_seconds num_used_containers needed reserved used : Val) :
    Except Err ResourceUsageReport := do
  let ms ← as_bounded_int "memory_seconds" 0 memory_seconds
  let vs ← as_bounded_int "vcore_seconds" 0 vcore_seconds
  let nc ← as_bounded_int "num_used_containers" 0 num_used_containers
  let nr ← as_resources "needed_resources" needed
  nr.validate false
  let rr ← as_resources "reserved_resources" reserved
  rr.validate false
  let ur ← as_resources "used_resources" used
  ur.validate false
  Except.ok ⟨ms, vs, nc, nr, rr, ur⟩

/-- One nested-resources entry of `ResourceUsageReport.from_dict`:
`Resources(vcores=max(0, val['vcores']), memory=max(0, val['memory']))`
(arguments evaluated left to right; a non-mapping `val` fails the
subscript). -/
def rur_resources_field (m : List (String × Val)) (k2 : String) :
    Except Err Resources := do
  let val ← getitem m k2
  match val with
  | Val.dict d => do
      let vcv ← getitem d "vcores"
      let vc ← py_max0 "vcores" vcv
      let mmv ← getitem d "memory"
      let mm ← py_max0 "memory" mmv
      Resources.init mm vc
  | _ => Except.error (Err.typeErr k2 "mapping")

/-- `ResourceUsageReport.from_dict`: camelCase key check, mandatory
subscripts; `numUsedContainers` and the nested `Resources` fields are
clamped with `max(0, ·)` — `memorySeconds` and `vcoreSeconds` are NOT. -/
def ResourceUsageReport.from_dict (v : Val) : Except Err ResourceUsageReport := do
  let m ← check_keys "ResourceUsageReport" v rur_keys
  let ms ← getitem m "memorySeconds"
  let vs ← getitem m "vcoreSeconds"
  let ncv ← getitem m "numUsedContainers"
  let nc ← py_max0 "numUsedContainers" ncv
  let need ← rur_resources_field m "neededResources"
  let resv ← rur_resources_field m "reservedResources"
  let used ← rur_resources_field m "usedResources"
  ResourceUsageReport.init ms vs nc (Val.res need) (Val.res resv) (Val.res used)

/-- Modelled from the spec: the wire message for `ResourceUsageReport`. -/
structure ResourceUsageReportMsg where
  memory_seconds : Int
  vcore_seconds : Int
  num_used_containers : Int
  needed_resources : ResourcesMsg
  reserved_resources : ResourcesMsg
  used_resources : ResourcesMsg
  deriving DecidableEq, Repr

/-- `Base.to_protobuf` as inherited by `ResourceUsageReport`. -/
def ResourceUsageReport.to_protobuf (u : ResourceUsageReport) :
    Except Err ResourceUsageReportMsg := do
  u.validate
  let nm ← u.needed_resources.to_protobuf
  let rm ← u.reserved_resources.to_protobuf
  let um ← u.used_resources.to_protobuf
  Except.ok ⟨u.memory_seconds, u.vcore_seconds, u.num_used_containers, nm, rm, um⟩

/-- `ResourceUsageReport.from_protobuf`: each field taken from the message
verbatim — NO clamping on the wire path. -/
def ResourceUsageReport.from_protobuf (msg : ResourceUsageReportMsg) :
    Except Err ResourceUsageReport := do
  let nr ← Resources.from_protobuf msg.needed_resources
  let rr ← Resources.from_protobuf msg.reserved_resources
  let ur ← Resources.from_protobuf msg.used_resources
  ResourceUsageReport.init (Val.int msg.memory_seconds) (Val.int msg.vcore_seconds)
    (Val.int msg.num_used_containers) (Val.res nr) (Val.res rr) (Val.res ur)

/-! ## ApplicationReport (`class ApplicationReport`) -/

/-- `_keys = tuple(_to_camel_case(k) for k in __slots__)`, evaluated. -/
def app_keys : List String :=
  ["id", "name", "user", "queue", "tags", "host", "port", "trackingUrl",
   "state", "finalStatus", "progress", "usage", "diagnostics",
   "startTime", "finishTime"]

/-- Modelled from the spec: the wire enum `ApplicationState.Type`.  The
spec fixes only the name/code correspondence shape; the value set follows
the YARN application states. -/
def appStateValue : String → Option Int
  | "NEW" => some 0
  | "NEW_SAVING" => some 1
  | "SUBMITTED" => some 2
  | "ACCEPTED" => some 3
  | "RUNNING" => some 4
  | "FINISHED" => some 5
  | "FAILED" => some 6
  | "KILLED" => some 7
  | _ => Option.none

/-- Modelled from the spec: `ApplicationState.Type.Name`. -/
def appStateName : Int → Option String
  | 0 => some "NEW"
  | 1 => some "NEW_SAVING"
  | 2 => some "SUBMITTED"
  | 3 => some "ACCEPTED"
  | 4 => some "RUNNING"
  | 5 => some "FINISHED"
  | 6 => some "FAILED"
  | 7 => some "KILLED"
  | _ => Option.none

/-- Modelled from the spec: the wire enum `FinalStatus.Type`. -/
def finalStatusValue : String → Option Int
  | "UNDEFINED" => some 0
  | "SUCCEEDED" => some 1
  | "FAILED" => some 2
  | "KILLED" => some 3
  | _ => Option.none

/-- Modelled from the spec: `FinalStatus.Type.Name`. -/
def finalStatusName : Int → Option String
  | 0 => some "UNDEFINED"
  | 1 => some "SUCCEEDED"
  | 2 => some "FAILED"
  | 3 => some "KILLED"
  | _ => Option.none

/-- `ApplicationReport._validate()`: every check except `usage` is a pure
type check, trivially satisfied on the typed record; `usage` is
re-validated recursively.  Note `state`/`final_status` are only checked to
be STRINGS — not members of the enum. -/
def ApplicationReport.validate (a : ApplicationReport) : Except Err Unit :=
  a.usage.validate

/-- `ApplicationReport.__init__`: all parameters mandatory positionals;
assign then `_validate()` check-by-check in source order. -/
def ApplicationReport.init
    (id name user queue tags host port tracking_url state final_status
     progress usage diagnostics start_time finish_time : Val) :
    Except Err ApplicationReport := do
  let i ← as_str "id" id
  let nm ← as_str "name" name
  let us ← as_str "user" user
  let qu ← as_str "queue" queue
  let tg ← as_str_list "tags" tags
  let ho ← as_str_opt "host" host
  let po ← as_int_opt "port" port
  let tu ← as_str_opt "tracking_url" tracking_url
  let st ← as_str "state" state
  let fs ← as_str "final_status" final_status
  let pr ←
    (match progress with
     | Val.float q => Except.ok q
     | _ => Except.error (Err.typeErr "progress" "float"))
  let ug ←
    (match usage with
     | Val.rur u => Except.ok u
     | _ => Except.error (Err.typeErr "usage" "ResourceUsageReport"))
  ug.validate
  let dg ← as_str_opt "diagnostics" diagnostics
  let sta ←
    (match start_time with
     | Val.datetime t => Except.ok t
     | _ => Except.error (Err.typeErr "start_time" "datetime"))
  let fin ←
    (match finish_time with
     | Val.datetime t => Except.ok t
     | _ => Except.error (Err.typeErr "finish_time" "datetime"))
  Except.ok ⟨i, nm, us, qu, tg, ho, po, tu, st, fs, pr, ug, dg, sta, fin⟩

/-- `_datetime_from_millis(kwargs[k])` on a mapping value:
`timedelta(milliseconds=x)` requires a number — non-int values (including
floats, whose sub-millisecond instants are outside the integer time model)
are collapsed to a type error. -/
def as_datetime_millis (k : String) (v : Val) : Except Err Val :=
  match v with
  | Val.int t => Except.ok (Val.datetime (datetime_from_millis t))
  | _ => Except.error (Err.typeErr k "int")

/-- `ApplicationReport.from_dict`: camelCase key check, `obj.get` for
every field (missing keys become None), recursive `usage` construction,
millis-to-datetime conversion for the two time fields, then the
constructor. -/
def ApplicationReport.from_dict (v : Val) : Except Err ApplicationReport := do
  let m ← check_keys "ApplicationReport" v app_keys
  let usage ← (ResourceUsageReport.from_dict ((dget m "usage").getD Val.none)).map Val.rur
  let sta ← as_datetime_millis "startTime" ((dget m "startTime").getD Val.none)
  let fin ← as_datetime_millis "finishTime" ((dget m "finishTime").getD Val.none)
  ApplicationReport.init ((dget m "id").getD Val.none) ((dget m "name").getD Val.none)
    ((dget m "user").getD Val.none) ((dget m "queue").getD Val.none)
    ((dget m "tags").getD Val.none) ((dget m "host").getD Val.none)
    ((dget m "port").getD Val.none) ((dget m "trackingUrl").getD Val.none)
    ((dget m "state").getD Val.none) ((dget m "finalStatus").getD Val.none)
    ((dget m "progress").getD Val.none) usage ((dget m "diagnostics").getD Val.none)
    sta fin

/-- Modelled from the spec: the wire message for `ApplicationReport`.
Strings are plain (non-nullable) wire strings, `port` a wire integer,
the enums integer codes, the timestamps 64-bit milliseconds. -/
structure ApplicationReportMsg where
  id : String
  name : String
  user : String
  queue : String
  tags : List String
  host : String
  port : Int
  tracking_url : String
  state : Int
  final_status : Int
  progress : Int
  usage : ResourceUsageReportMsg
  diagnostics : String
  start_time : Int
  finish_time : Int
  deriving DecidableEq, Repr

/-- `Base.to_protobuf` as inherited by `ApplicationReport` (with the local
offset `off` as the environment of the datetime conversion): re-validate,
convert `usage` (which re-validates) and the datetimes, then construct the
message — the enum names resolve to codes, and `None` values for the
nullable fields are treated as "not set", leaving the wire defaults
(`""`, `0`). -/
def ApplicationReport.to_protobuf (off : Int) (a : ApplicationReport) :
    Except Err ApplicationReportMsg := do
  a.validate
  let umsg ← a.usage.to_protobuf
  let sc ← enum_code appStateValue a.state
  let fc ← enum_code finalStatusValue a.final_status
  Except.ok ⟨a.id, a.name, a.user, a.queue, a.tags, a.host.getD "",
    a.port.getD 0, a.tracking_url.getD "", sc, fc, a.progress, umsg,
    a.diagnostics.getD "", datetime_timestamp_millis off a.start_time,
    datetime_timestamp_millis off a.finish_time⟩

/-- `ApplicationReport.from_protobuf`: enum codes to names via
`ApplicationState.Type.Name` / `FinalStatus.Type.Name`, recursive `usage`,
millis to datetimes, then the constructor. -/
def ApplicationReport.from_protobuf (msg : ApplicationReportMsg) :
    Except Err ApplicationReport := do
  let sn ← enum_name appStateName msg.state
  let fn ← enum_name finalStatusName msg.final_status
  let u ← ResourceUsageReport.from_protobuf msg.usage
  ApplicationReport.init (Val.str msg.id) (Val.str msg.name) (Val.str msg.user)
    (Val.str msg.queue) (Val.list (msg.tags.map Val.str)) (Val.str msg.host)
    (Val.int msg.port) (Val.str msg.tracking_url) (Val.str sn) (Val.str fn)
    (Val.float msg.progress) (Val.rur u) (Val.str msg.diagnostics)
    (Val.datetime (datetime_from_millis msg.start_time))
    (Val.datetime (datetime_from_millis msg.finish_time))

/-! ## Basic lemmas about the `Except` embedding -/

@[simp] theorem ok_bind {α β : Type} (a : α) (f : α → Except Err β) :
    Except.bind (Except.ok a) f = f a := rfl

@[simp] theorem error_bind {α β : Type} (e : Err) (f : α → Except Err β) :
    Except.bind (Except.error e) f = Except.error e := rfl

@[simp] theorem bind_eq_except_bind {α β : Type} (x : Except Err α)
    (f : α → Except Err β) : x >>= f = Except.bind x f := rfl

@[simp] theorem pure_eq_ok {α : Type} (a : α) :
    (pure a : Except Err α) = Except.ok a := rfl

@[simp] theorem map_ok {α β : Type} (f : α → β) (a : α) :
    Except.map f (Except.ok a : Except Err α) = Except.ok (f a) := rfl

@[simp] theorem map_error {α β : Type} (f : α → β) (e : Err) :
    Except.map f (Except.error e : Except Err α) = Except.error e := rfl

theorem bind_ok_iff {α β : Type} {x : Except Err α} {f : α → Except Err β}
    {b : β} : Except.bind x f = Except.ok b ↔
      ∃ a, x = Except.ok a ∧ f a = Except.ok b := by
  cases x <;> simp

theorem map_ok_iff {α β : Type} {x : Except Err α} {f : α → β} {b : β} :
    Except.map f x = Except.ok b ↔ ∃ a, x = Except.ok a ∧ f a = b := by
  cases x <;> simp

theorem check_required_ok {field : String} {v : Val} :
    check_required field v = Except.ok () ↔ v ≠ Val.req := by
  cases v <;> simp [check_required]

theorem as_str_ok {field : String} {v : Val} {s : String} :
    as_str field v = Except.ok s ↔ v = Val.str s := by
  cases v <;> simp [as_str]

theorem as_str_opt_ok {field : String} {v : Val} {o : Option String} :
    as_str_opt field v = Except.ok o ↔
      ((v = Val.none ∧ o = Option.none) ∨ ∃ s, v = Val.str s ∧ o = some s) := by
  cases v <;> simp [as_str_opt]
  · exact comm
  · exact comm

theorem as_int_opt_ok {field : String} {v : Val} {o : Option Int} :
    as_int_opt field v = Except.ok o ↔
      ((v = Val.none ∧ o = Option.none) ∨ ∃ n, v = Val.int n ∧ o = some n) := by
  cases v <;> simp [as_int_opt]
  · exact comm
  · exact comm

theorem as_bounded_int_ok {field : String} {min : Int} {v : Val} {n : Int} :
    as_bounded_int field min v = Except.ok n ↔ v = Val.int n ∧ min ≤ n := by
  cases v <;> simp [as_bounded_int]
  case int m =>
    by_cases h : m < min <;> simp [h] <;> omega

theorem check_bounded_ok {field : String} {min n : Int} :
    check_bounded field min n = Except.ok () ↔ min ≤ n := by
  by_cases h : n < min <;> simp [check_bounded, h] <;> omega

theorem check_in_set_ok {field : String} {values : List String} {v : Val}
    {s : String} : check_in_set field values v = Except.ok s ↔
      v = Val.str s ∧ s ∈ values := by
  cases v <;> simp [check_in_set]
  case str t =>
    by_cases h : t ∈ values <;> simp [h]
    · exact fun he => by rw [← he]; exact h
    · exact fun he hs => h (by rw [he]; exact hs)

theorem check_in_set_str_ok {field : String} {values : List String}
    {s : String} : check_in_set_str field values s = Except.ok () ↔
      s ∈ values := by
  by_cases h : s ∈ values <;> simp [check_in_set_str, h]

theorem as_resources_ok {field : String} {v : Val} {r : Resources} :
    as_resources field v = Except.ok r ↔ v = Val.res r := by
  cases v <;> simp [as_resources]

/-! ## Extraction round-trips for homogeneous containers -/

theorem str_elems_map (field : String) (xs : List String) :
    str_elems field (xs.map Val.str) = Except.ok xs := by
  induction xs with
  | nil => rfl
  | cons x rest ih => simp [str_elems, ih]

theorem as_str_list_map (field : String) (xs : List String) :
    as_str_list field (Val.list (xs.map Val.str)) = Except.ok xs := by
  simp [as_str_list, str_elems_map]

theorem str_val_pairs_map (field : String) (xs : List (String × String)) :
    str_val_pairs field (xs.map (fun p => (p.1, Val.str p.2))) = Except.ok xs := by
  induction xs with
  | nil => rfl
  | cons x rest ih => simp [str_val_pairs, ih]

theorem as_str_dict_map (field : String) (xs : List (String × String)) :
    as_str_dict field (Val.dict (xs.map (fun p => (p.1, Val.str p.2)))) =
      Except.ok xs := by
  simp [as_str_dict, str_val_pairs_map]

theorem file_val_pairs_map (field : String) (xs : List (String × File)) :
    file_val_pairs field (xs.map (fun p => (p.1, Val.file p.2))) = Except.ok xs := by
  induction xs with
  | nil => rfl
  | cons x rest ih => simp [file_val_pairs, ih]

theorem as_file_dict_map (field : String) (xs : List (String × File)) :
    as_file_dict field (Val.dict (xs.map (fun p => (p.1, Val.file p.2)))) =
      Except.ok xs := by
  simp [as_file_dict, file_val_pairs_map]

theorem service_val_pairs_map (field : String) (xs : List (String × Service)) :
    service_val_pairs field (xs.map (fun p => (p.1, Val.service p.2))) =
      Except.ok xs := by
  induction xs with
  | nil => rfl
  | cons x rest ih => simp [service_val_pairs, ih]

theorem as_service_dict_map (field : String) (xs : List (String × Service)) :
    as_service_dict field (Val.dict (xs.map (fun p => (p.1, Val.service p.2)))) =
      Except.ok xs := by
  simp [as_service_dict, service_val_pairs_map]

/-! ## Resources lemmas -/

theorem resources_validate_ok {b : Bool} {r : Resources} :
    Resources.validate b r = Except.ok () ↔
      ((if b then (1 : Int) else 0) ≤ r.vcores ∧
       (if b then (1 : Int) else 0) ≤ r.memory) := by
  unfold Resources.validate
  simp only [bind_eq_except_bind, bind_ok_iff]
  constructor
  · intro ⟨a, h1, h2⟩
    exact ⟨check_bounded_ok.mp h1, check_bounded_ok.mp h2⟩
  · intro ⟨h1, h2⟩
    exact ⟨(), check_bounded_ok.mpr h1, check_bounded_ok.mpr h2⟩

theorem resources_init_ok {mv vv : Val} {r : Resources} :
    Resources.init mv vv = Except.ok r ↔
      (mv = Val.int r.memory ∧ vv = Val.int r.vcores ∧
       0 ≤ r.memory ∧ 0 ≤ r.vcores) := by
  unfold Resources.init
  simp only [bind_eq_except_bind, bind_ok_iff]
  constructor
  · intro ⟨u1, hr1, u2, hr2, vc, hvc, mem, hmem, hok⟩
    obtain ⟨hvv, hvcb⟩ := as_bounded_int_ok.mp hvc
    obtain ⟨hmv, hmemb⟩ := as_bounded_int_ok.mp hmem
    cases hok
    exact ⟨hmv, hvv, hmemb, hvcb⟩
  · intro ⟨hmv, hvv, hmb, hvb⟩
    refine ⟨(), check_required_ok.mpr (by simp [hmv]), (),
      check_required_ok.mpr (by simp [hvv]), r.vcores,
      as_bounded_int_ok.mpr ⟨hvv, hvb⟩, r.memory,
      as_bounded_int_ok.mpr ⟨hmv, hmb⟩, rfl⟩

theorem resources_roundtrip {r : Resources} (hm : 0 ≤ r.memory)
    (hv : 0 ≤ r.vcores) :
    Except.bind r.to_protobuf Resources.from_protobuf = Except.ok r := by
  have hval : Resources.validate false r = Except.ok () :=
    resources_validate_ok.mpr (by simp [hm, hv])
  unfold Resources.to_protobuf
  simp [hval, Resources.from_protobuf, resources_init_ok]
  exact ⟨hm, hv⟩

theorem resources_from_dict_sound {v : Val} {r : Resources}
    (h : Resources.from_dict v = Except.ok r) : 0 ≤ r.memory ∧ 0 ≤ r.vcores := by
  unfold Resources.from_dict at h
  simp only [bind_eq_except_bind, bind_ok_iff] at h
  obtain ⟨m, _, hinit⟩ := h
  have := resources_init_ok.mp hinit
  exact ⟨this.2.2.1, this.2.2.2⟩

/-! ## File lemmas -/

theorem file_validate_ok {f : File} :
    f.validate = Except.ok () ↔
      (f.type ∈ ["FILE", "ARCHIVE"] ∧
       f.visibility ∈ ["APPLICATION", "PUBLIC", "PRIVATE"] ∧
       0 ≤ f.size ∧ 0 ≤ f.timestamp) := by
  unfold File.validate
  simp only [bind_eq_except_bind, bind_ok_iff]
  constructor
  · intro ⟨a, h1, b, h2, c, h3, h4⟩
    exact ⟨check_in_set_str_ok.mp h1, check_in_set_str_ok.mp h2,
      check_bounded_ok.mp h3, check_bounded_ok.mp h4⟩
  · intro ⟨h1, h2, h3, h4⟩
    exact ⟨(), check_in_set_str_ok.mpr h1, (), check_in_set_str_ok.mpr h2,
      (), check_bounded_ok.mpr h3, check_bounded_ok.mpr h4⟩

theorem file_init_ok {sv tv vv zv wv : Val} {f : File} :
    File.init sv tv vv zv wv = Except.ok f ↔
      (sv = Val.str f.source ∧ tv = Val.str f.type ∧ vv = Val.str f.visibility ∧
       zv = Val.int f.size ∧ wv = Val.int f.timestamp ∧
       f.type ∈ ["FILE", "ARCHIVE"] ∧
       f.visibility ∈ ["APPLICATION", "PUBLIC", "PRIVATE"] ∧
       0 ≤ f.size ∧ 0 ≤ f.timestamp) := by
  unfold File.init
  simp only [bind_eq_except_bind, bind_ok_iff]
  constructor
  · intro ⟨u1, h1, u2, h2, u3, h3, u4, h4, u5, h5, src, hsrc, ty, hty,
      vis, hvis, sz, hsz, ts, hts, hok⟩
    have hsv := as_str_ok.mp hsrc
    obtain ⟨htv, htymem⟩ := check_in_set_ok.mp hty
    obtain ⟨hvv, hvismem⟩ := check_in_set_ok.mp hvis
    obtain ⟨hzv, hszb⟩ := as_bounded_int_ok.mp hsz
    obtain ⟨hwv, htsb⟩ := as_bounded_int_ok.mp hts
    cases hok
    exact ⟨hsv, htv, hvv, hzv, hwv, htymem, hvismem, hszb, htsb⟩
  · intro ⟨hsv, htv, hvv, hzv, hwv, htymem, hvismem, hszb, htsb⟩
    refine ⟨(), check_required_ok.mpr (by simp [hsv]), (),
      check_required_ok.mpr (by simp [htv]), (),
      check_required_ok.mpr (by simp [hvv]), (),
      check_required_ok.mpr (by simp [hzv]), (),
      check_required_ok.mpr (by simp [hwv]), f.source, as_str_ok.mpr hsv,
      f.type, check_in_set_ok.mpr ⟨htv, htymem⟩, f.visibility,
      check_in_set_ok.mpr ⟨hvv, hvismem⟩, f.size,
      as_bounded_int_ok.mpr ⟨hzv, hszb⟩, f.timestamp,
      as_bounded_int_ok.mpr ⟨hwv, htsb⟩, rfl⟩

theorem file_init_sound {sv tv vv zv wv : Val} {f : File}
    (h : File.init sv tv vv zv wv = Except.ok f) : f.validate = Except.ok () := by
  obtain ⟨_, _, _, _, _, h6, h7, h8, h9⟩ := file_init_ok.mp h
  exact file_validate_ok.mpr ⟨h6, h7, h8, h9⟩

theorem file_from_dict_sound {v : Val} {f : File}
    (h : File.from_dict v = Except.ok f) : f.validate = Except.ok () := by
  unfold File.from_dict at h
  simp only [bind_eq_except_bind, bind_ok_iff] at h
  obtain ⟨m, _, hinit⟩ := h
  exact file_init_sound hinit

theorem fileType_value_name {s : String} {c : Int}
    (h : fileTypeValue s = some c) : fileTypeName c = some s := by
  unfold fileTypeValue at h
  split at h <;>
    first
    | (injection h with h; subst h; decide)
    | exact absurd h (by simp)

theorem fileVisibility_value_name {s : String} {c : Int}
    (h : fileVisibilityValue s = some c) : fileVisibilityName c = some s := by
  unfold fileVisibilityValue at h
  split at h <;>
    first
    | (injection h with h; subst h; decide)
    | exact absurd h (by simp)

theorem file_roundtrip {f : File} (hval : f.validate = Except.ok ()) :
    Except.bind f.to_protobuf File.from_protobuf = Except.ok f := by
  obtain ⟨htymem, hvismem, hszb, htsb⟩ := file_validate_ok.mp hval
  have hty : ∃ c, fileTypeValue f.type = some c := by
    rcases (by simpa using htymem : f.type = "FILE" ∨ f.type = "ARCHIVE") with
      h | h <;> rw [h] <;> exact ⟨_, rfl⟩
  have hvis : ∃ c, fileVisibilityValue f.visibility = some c := by
    rcases (by simpa using hvismem :
        f.visibility = "APPLICATION" ∨ f.visibility = "PUBLIC" ∨
        f.visibility = "PRIVATE") with h | h | h <;> rw [h] <;>
      exact ⟨_, rfl⟩
  obtain ⟨tc, htc⟩ := hty
  obtain ⟨vc, hvc⟩ := hvis
  unfold File.to_protobuf
  simp only [hval, ok_bind, bind_eq_except_bind, enum_code, htc, hvc]
  unfold File.from_protobuf
  simp only [ok_bind, enum_name, fileType_value_name htc,
    fileVisibility_value_name hvc, bind_eq_except_bind]
  exact file_init_ok.mpr ⟨rfl, rfl, rfl, rfl, rfl, htymem, hvismem, hszb, htsb⟩

/-! ## Service lemmas -/

theorem validate_files_ok {fs : List (String × File)} :
    validate_files fs = Except.ok () ↔ ∀ p ∈ fs, p.2.validate = Except.ok () := by
  induction fs with
  | nil => simp [validate_files]
  | cons p rest ih =>
      obtain ⟨k, f⟩ := p
      simp only [validate_files, bind_eq_except_bind, bind_ok_iff]
      constructor
      · rintro ⟨a, h1, h2⟩ q hq
        rcases List.mem_cons.mp hq with h | h
        · subst h; exact h1
        · exact ih.mp h2 q h
      · intro h
        exact ⟨(), h (k, f) (List.mem_cons_self _ _),
          ih.mpr (fun q hq => h q (List.mem_cons_of_mem _ hq))⟩

theorem service_validate_ok {s : Service} :
    s.validate = Except.ok () ↔
      (0 ≤ s.instances ∧ 1 ≤ s.resources.vcores ∧ 1 ≤ s.resources.memory ∧
       (∀ p ∈ s.files, p.2.validate = Except.ok ()) ∧ s.commands ≠ []) := by
  unfold Service.validate
  simp only [bind_eq_except_bind, bind_ok_iff]
  constructor
  · rintro ⟨a, h1, b, h2, c, h3, h4⟩
    have hr := resources_validate_ok.mp h2
    refine ⟨check_bounded_ok.mp h1, by simpa using hr.1, by simpa using hr.2,
      validate_files_ok.mp h3, ?_⟩
    cases hcm : s.commands with
    | nil => rw [hcm] at h4; simp at h4
    | cons x xs => simp
  · rintro ⟨h1, h2, h3, h4, h5⟩
    refine ⟨(), check_bounded_ok.mpr h1, (),
      resources_validate_ok.mpr (by simp [h2, h3]), (),
      validate_files_ok.mpr h4, ?_⟩
    cases hcm : s.commands with
    | nil => exact absurd hcm h5
    | cons x xs => simp

theorem service_init_sound {cv rv iv fv ev dv : Val} {s : Service}
    (h : Service.init cv rv iv fv ev dv = Except.ok s) :
    s.validate = Except.ok () := by
  unfold Service.init at h
  simp only [bind_eq_except_bind, bind_ok_iff] at h
  obtain ⟨u1, hr1, u2, hr2, u3, hr3, u4, hr4, u5, hr5, u6, hr6, inst, hinst,
    res, hres, u7, hresval, fs, hfs, u8, hfsval, ev2, hev, cs, hcs, h⟩ := h
  cases hce : cs.isEmpty with
  | true => rw [hce] at h; simp at h
  | false =>
      rw [hce] at h
      simp only [Bool.false_eq_true, if_false, bind_ok_iff] at h
      obtain ⟨ds, hds, hok⟩ := h
      cases hok
      refine service_validate_ok.mpr ⟨(as_bounded_int_ok.mp hinst).2,
        by simpa using (resources_validate_ok.mp hresval).1,
        by simpa using (resources_validate_ok.mp hresval).2,
        validate_files_ok.mp hfsval, ?_⟩
      intro hnil
      have hnil2 : cs = [] := hnil
      rw [hnil2] at hce
      simp at hce

theorem service_init_of_valid {s : Service} (h : s.validate = Except.ok ()) :
    Service.init (Val.list (s.commands.map Val.str)) (Val.res s.resources)
      (Val.int s.instances)
      (Val.dict (s.files.map (fun p => (p.1, Val.file p.2))))
      (Val.dict (s.env.map (fun p => (p.1, Val.str p.2))))
      (Val.list (s.depends.map Val.str)) = Except.ok s := by
  obtain ⟨h1, h2, h3, h4, h5⟩ := service_validate_ok.mp h
  have hi : as_bounded_int "instances" 0 (Val.int s.instances) =
      Except.ok s.instances := as_bounded_int_ok.mpr ⟨rfl, h1⟩
  have hrv : Resources.validate true s.resources = Except.ok () :=
    resources_validate_ok.mpr (by simp [h2, h3])
  have hce : s.commands.isEmpty = false := by
    cases hcm : s.commands with
    | nil => exact absurd hcm h5
    | cons x xs => rfl
  simp only [Service.init, bind_eq_except_bind, check_required, ok_bind, hi,
    as_resources, hrv, as_file_dict_map, validate_files_ok.mpr h4,
    as_str_dict_map, as_str_list_map, hce, Bool.false_eq_true, if_false]

theorem service_from_dict_sound {v : Val} {s : Service}
    (h : Service.from_dict v = Except.ok s) : s.validate = Except.ok () := by
  unfold Service.from_dict at h
  simp only [bind_eq_except_bind, bind_ok_iff] at h
  obtain ⟨m, _, rv, _, fv, _, hinit⟩ := h
  exact service_init_sound hinit

theorem files_roundtrip {fs : List (String × File)}
    (h : ∀ p ∈ fs, p.2.validate = Except.ok ()) :
    ∃ msgs, files_to_protobuf fs = Except.ok msgs ∧
      files_from_protobuf msgs = Except.ok fs := by
  induction fs with
  | nil => exact ⟨[], rfl, rfl⟩
  | cons p rest ih =>
      obtain ⟨k, f⟩ := p
      have hf := h (k, f) (List.mem_cons_self _ _)
      obtain ⟨msg, hmsg, hback⟩ := bind_ok_iff.mp (file_roundtrip hf)
      obtain ⟨msgs, hmsgs, hbacks⟩ :=
        ih (fun q hq => h q (List.mem_cons_of_mem _ hq))
      refine ⟨(k, msg) :: msgs, ?_, ?_⟩
      · simp [files_to_protobuf, hmsg, hmsgs]
      · simp [files_from_protobuf, hback, hbacks]

theorem service_roundtrip {s : Service} (hval : s.validate = Except.ok ()) :
    ∃ msg, s.to_protobuf = Except.ok msg ∧
      Service.from_protobuf msg = Except.ok s := by
  obtain ⟨h1, h2, h3, h4, h5⟩ := service_validate_ok.mp hval
  have hrp : Except.bind s.resources.to_protobuf Resources.from_protobuf =
      Except.ok s.resources := resources_roundtrip (by omega) (by omega)
  obtain ⟨rmsg, hrmsg, hrback⟩ := bind_ok_iff.mp hrp
  obtain ⟨fmsgs, hfmsgs, hfback⟩ := files_roundtrip h4
  refine ⟨⟨s.instances, rmsg, fmsgs, s.env, s.commands, s.depends⟩, ?_, ?_⟩
  · simp [Service.to_protobuf, hval, hrmsg, hfmsgs]
  · simp only [Service.from_protobuf, bind_eq_except_bind, hrback, ok_bind,
      hfback]
    exact service_init_of_valid hval

/-! ## Job lemmas -/

theorem validate_services_ok {ss : List (String × Service)} :
    validate_services ss = Except.ok () ↔
      ∀ p ∈ ss, p.2.validate = Except.ok () := by
  induction ss with
  | nil => simp [validate_services]
  | cons p rest ih =>
      obtain ⟨k, s⟩ := p
      simp only [validate_services, bind_eq_except_bind, bind_ok_iff]
      constructor
      · rintro ⟨a, h1, h2⟩ q hq
        rcases List.mem_cons.mp hq with h | h
        · subst h; exact h1
        · exact ih.mp h2 q h
      · intro h
        exact ⟨(), h (k, s) (List.mem_cons_self _ _),
          ih.mpr (fun q hq => h q (List.mem_cons_of_mem _ hq))⟩

theorem job_validate_ok {j : Job} :
    j.validate = Except.ok () ↔
      (j.services ≠ [] ∧ ∀ p ∈ j.services, p.2.validate = Except.ok ()) := by
  unfold Job.validate
  cases hsm : j.services with
  | nil => simp
  | cons p rest =>
      simp only [List.isEmpty_cons, Bool.false_eq_true, if_false]
      rw [validate_services_ok]
      simp

theorem job_init_sound {sv nv qv : Val} {j : Job}
    (h : Job.init sv nv qv = Except.ok j) : j.validate = Except.ok () := by
  unfold Job.init at h
  simp only [bind_eq_except_bind, bind_ok_iff] at h
  obtain ⟨u1, hr1, u2, hr2, u3, hr3, nm, hnm, qu, hqu, svs, hsvs, h⟩ := h
  cases hse : svs.isEmpty with
  | true => rw [hse] at h; simp at h
  | false =>
      rw [hse] at h
      simp only [Bool.false_eq_true, if_false, bind_ok_iff] at h
      obtain ⟨u4, hval, hok⟩ := h
      cases hok
      refine job_validate_ok.mpr ⟨?_, validate_services_ok.mp hval⟩
      intro hnil
      have hnil2 : svs = [] := hnil
      rw [hnil2] at hse
      simp at hse

theorem job_init_str {nm q : String} {svs : List (String × Service)}
    (hne : svs ≠ []) (hval : ∀ p ∈ svs, p.2.validate = Except.ok ()) :
    Job.init (Val.dict (svs.map (fun p => (p.1, Val.service p.2))))
      (Val.str nm) (Val.str q) = Except.ok ⟨nm, some q, svs⟩ := by
  have hse : svs.isEmpty = false := by
    cases hcm : svs with
    | nil => exact absurd hcm hne
    | cons x xs => rfl
  simp only [Job.init, bind_eq_except_bind, check_required, ok_bind, as_str,
    as_str_opt, as_service_dict_map, hse, Bool.false_eq_true, if_false,
    validate_services_ok.mpr hval]

theorem job_from_dict_sound {v : Val} {j : Job}
    (h : Job.from_dict v = Except.ok j) : j.validate = Except.ok () := by
  unfold Job.from_dict at h
  simp only [bind_eq_except_bind, bind_ok_iff] at h
  obtain ⟨m, _, sv, _, hinit⟩ := h
  exact job_init_sound hinit

theorem services_roundtrip {ss : List (String × Service)}
    (h : ∀ p ∈ ss, p.2.validate = Except.ok ()) :
    ∃ msgs, services_to_protobuf ss = Except.ok msgs ∧
      services_from_protobuf msgs = Except.ok ss := by
  induction ss with
  | nil => exact ⟨[], rfl, rfl⟩
  | cons p rest ih =>
      obtain ⟨k, s⟩ := p
      have hs := h (k, s) (List.mem_cons_self _ _)
      obtain ⟨msg, hmsg, hback⟩ := service_roundtrip hs
      obtain ⟨msgs, hmsgs, hbacks⟩ :=
        ih (fun q hq => h q (List.mem_cons_of_mem _ hq))
      refine ⟨(k, msg) :: msgs, ?_, ?_⟩
      · simp [services_to_protobuf, hmsg, hmsgs]
      · simp [services_from_protobuf, hback, hbacks]

theorem job_roundtrip {j : Job} (hval : j.validate = Except.ok ())
    {q : String} (hq : j.queue = some q) :
    Except.bind j.to_protobuf Job.from_protobuf = Except.ok j := by
  obtain ⟨hne, hsv⟩ := job_validate_ok.mp hval
  obtain ⟨smsgs, hsmsgs, hsback⟩ := services_roundtrip hsv
  have hto : j.to_protobuf = Except.ok ⟨j.name, q, smsgs⟩ := by
    simp [Job.to_protobuf, hval, hsmsgs, hq]
  rw [hto, ok_bind]
  simp only [Job.from_protobuf, bind_eq_except_bind, hsback, ok_bind]
  rw [job_init_str hne hsv]
  rw [← hq]

/-! ## ResourceUsageReport lemmas -/

theorem rur_validate_ok {u : ResourceUsageReport} :
    u.validate = Except.ok () ↔
      (0 ≤ u.memory_seconds ∧ 0 ≤ u.vcore_seconds ∧
       0 ≤ u.num_used_containers ∧
       (0 ≤ u.needed_resources.vcores ∧ 0 ≤ u.needed_resources.memory) ∧
       (0 ≤ u.reserved_resources.vcores ∧ 0 ≤ u.reserved_resources.memory) ∧
       (0 ≤ u.used_resources.vcores ∧ 0 ≤ u.used_resources.memory)) := by
  unfold ResourceUsageReport.validate
  simp only [bind_eq_except_bind, bind_ok_iff]
  constructor
  · rintro ⟨a, h1, b, h2, c, h3, d, h4, e, h5, h6⟩
    exact ⟨check_bounded_ok.mp h1, check_bounded_ok.mp h2,
      check_bounded_ok.mp h3, by simpa using resources_validate_ok.mp h4,
      by simpa using resources_validate_ok.mp h5,
      by simpa using resources_validate_ok.mp h6⟩
  · rintro ⟨h1, h2, h3, h4, h5, h6⟩
    exact ⟨(), check_bounded_ok.mpr h1, (), check_bounded_ok.mpr h2, (),
      check_bounded_ok.mpr h3, (), resources_validate_ok.mpr (by simpa using h4),
      (), resources_validate_ok.mpr (by simpa using h5),
      resources_validate_ok.mpr (by simpa using h6)⟩

theorem rur_init_sound {a b c d e f : Val} {u : ResourceUsageReport}
    (h : ResourceUsageReport.init a b c d e f = Except.ok u) :
    u.validate = Except.ok () := by
  unfold ResourceUsageReport.init at h
  simp only [bind_eq_except_bind, bind_ok_iff] at h
  obtain ⟨ms, hms, vs, hvs, nc, hnc, nr, hnr, u1, hnrv, rr, hrr, u2, hrrv,
    ur, hur, u3, hurv, hok⟩ := h
  cases hok
  exact rur_validate_ok.mpr ⟨(as_bounded_int_ok.mp hms).2,
    (as_bounded_int_ok.mp hvs).2, (as_bounded_int_ok.mp hnc).2,
    by simpa using resources_validate_ok.mp hnrv,
    by simpa using resources_validate_ok.mp hrrv,
    by simpa using resources_validate_ok.mp hurv⟩

theorem rur_init_of_valid {u : ResourceUsageReport}
    (h : u.validate = Except.ok ()) :
    ResourceUsageReport.init (Val.int u.memory_seconds)
      (Val.int u.vcore_seconds) (Val.int u.num_used_containers)
      (Val.res u.needed_resources) (Val.res u.reserved_resources)
      (Val.res u.used_resources) = Except.ok u := by
  obtain ⟨h1, h2, h3, h4, h5, h6⟩ := rur_validate_ok.mp h
  have hn : Resources.validate false u.needed_resources = Except.ok () :=
    resources_validate_ok.mpr (by simp [h4.1, h4.2])
  have hr : Resources.validate false u.reserved_resources = Except.ok () :=
    resources_validate_ok.mpr (by simp [h5.1, h5.2])
  have hu2 : Resources.validate false u.used_resources = Except.ok () :=
    resources_validate_ok.mpr (by simp [h6.1, h6.2])
  simp only [ResourceUsageReport.init, bind_eq_except_bind,
    as_bounded_int_ok.mpr ⟨rfl, h1⟩, ok_bind,
    as_bounded_int_ok.mpr ⟨rfl, h2⟩, as_bounded_int_ok.mpr ⟨rfl, h3⟩,
    as_resources, hn, hr, hu2]

theorem rur_from_dict_sound {v : Val} {u : ResourceUsageReport}
    (h : ResourceUsageReport.from_dict v = Except.ok u) :
    u.validate = Except.ok () := by
  unfold ResourceUsageReport.from_dict at h
  simp only [bind_eq_except_bind, bind_ok_iff] at h
  obtain ⟨m, _, ms, _, vs, _, nc0, _, nc, _, need, _, resv, _, used, _,
    hinit⟩ := h
  exact rur_init_sound hinit

theorem rur_roundtrip {u : ResourceUsageReport}
    (hval : u.validate = Except.ok ()) :
    ∃ msg, u.to_protobuf = Except.ok msg ∧
      ResourceUsageReport.from_protobuf msg = Except.ok u := by
  obtain ⟨h1, h2, h3, h4, h5, h6⟩ := rur_validate_ok.mp hval
  obtain ⟨nm, hnm, hnb⟩ := bind_ok_iff.mp (resources_roundtrip h4.2 h4.1)
  obtain ⟨rm, hrm, hrb⟩ := bind_ok_iff.mp (resources_roundtrip h5.2 h5.1)
  obtain ⟨um, hum, hub⟩ := bind_ok_iff.mp (resources_roundtrip h6.2 h6.1)
  refine ⟨⟨u.memory_seconds, u.vcore_seconds, u.num_used_containers,
    nm, rm, um⟩, ?_, ?_⟩
  · simp [ResourceUsageReport.to_protobuf, hval, hnm, hrm, hum]
  · simp only [ResourceUsageReport.from_protobuf, bind_eq_except_bind, hnb,
      hrb, hub, ok_bind]
    exact rur_init_of_valid hval

/-! ## ApplicationReport lemmas -/

theorem appState_value_name {s : String} {c : Int}
    (h : appStateValue s = some c) : appStateName c = some s := by
  unfold appStateValue at h
  split at h <;>
    first
    | (injection h with h; subst h; decide)
    | exact absurd h (by simp)

theorem finalStatus_value_name {s : String} {c : Int}
    (h : finalStatusValue s = some c) : finalStatusName c = some s := by
  unfold finalStatusValue at h
  split at h <;>
    first
    | (injection h with h; subst h; decide)
    | exact absurd h (by simp)

theorem app_init_sound {a1 a2 a3 a4 a5 a6 a7 a8 a9 a10 a11 a12 a13 a14 a15
    : Val} {a : ApplicationReport}
    (h : ApplicationReport.init a1 a2 a3 a4 a5 a6 a7 a8 a9 a10 a11 a12 a13
      a14 a15 = Except.ok a) : a.usage.validate = Except.ok () := by
  unfold ApplicationReport.init at h
  simp only [bind_eq_except_bind, bind_ok_iff] at h
  obtain ⟨i, _, nm, _, us, _, qu, _, tg, _, ho, _, po, _, tu, _, st, _,
    fs, _, pr, hpr, ug, hug, u1, hugval, dg, _, sta, _, fin, _, hok⟩ := h
  cases hok
  exact hugval

theorem app_from_dict_sound {v : Val} {a : ApplicationReport}
    (h : ApplicationReport.from_dict v = Except.ok a) :
    a.usage.validate = Except.ok () := by
  unfold ApplicationReport.from_dict at h
  simp only [bind_eq_except_bind, bind_ok_iff] at h
  obtain ⟨m, _, ug, _, sta, _, fin, _, hinit⟩ := h
  exact app_init_sound hinit

set_option maxHeartbeats 4000000 in
theorem app_init_typed {i nm us qu ho tu st fs dg : String}
    {tg : List String} {po pr sta fin : Int} {u : ResourceUsageReport}
    (hu : u.validate = Except.ok ()) :
    ApplicationReport.init (Val.str i) (Val.str nm) (Val.str us) (Val.str qu)
      (Val.list (tg.map Val.str)) (Val.str ho) (Val.int po) (Val.str tu)
      (Val.str st) (Val.str fs) (Val.float pr) (Val.rur u) (Val.str dg)
      (Val.datetime sta) (Val.datetime fin) =
      Except.ok ⟨i, nm, us, qu, tg, some ho, some po, some tu, st, fs, pr,
        u, some dg, sta, fin⟩ := by
  have step : ApplicationReport.init (Val.str i) (Val.str nm) (Val.str us)
      (Val.str qu) (Val.list (tg.map Val.str)) (Val.str ho) (Val.int po)
      (Val.str tu) (Val.str st) (Val.str fs) (Val.float pr) (Val.rur u)
      (Val.str dg) (Val.datetime sta) (Val.datetime fin) =
      Except.bind (str_elems "tags" (tg.map Val.str)) (fun tg2 =>
        Except.bind u.validate (fun _ =>
          Except.ok ⟨i, nm, us, qu, tg2, some ho, some po, some tu, st, fs,
            pr, u, some dg, sta, fin⟩)) := rfl
  rw [step]
  simp only [str_elems_map, hu, ok_bind]

theorem app_roundtrip {a : ApplicationReport}
    (hu : a.usage.validate = Except.ok ()) {ho tu dg : String} {po : Int}
    (h1 : a.host = some ho) (h2 : a.port = some po)
    (h3 : a.tracking_url = some tu) (h4 : a.diagnostics = some dg)
    {sc fc : Int} (h5 : appStateValue a.state = some sc)
    (h6 : finalStatusValue a.final_status = some fc) :
    Except.bind (a.to_protobuf 0) ApplicationReport.from_protobuf =
      Except.ok a := by
  obtain ⟨umsg, humsg, huback⟩ := rur_roundtrip hu
  have hto : a.to_protobuf 0 = Except.ok ⟨a.id, a.name, a.user, a.queue,
      a.tags, ho, po, tu, sc, fc, a.progress, umsg, dg, a.start_time,
      a.finish_time⟩ := by
    simp [ApplicationReport.to_protobuf, ApplicationReport.validate, hu,
      humsg, enum_code, h5, h6, h1, h2, h3, h4, datetime_timestamp_millis]
  rw [hto, ok_bind]
  simp only [ApplicationReport.from_protobuf, bind_eq_except_bind, enum_name,
    appState_value_name h5, finalStatus_value_name h6, ok_bind, huback,
    datetime_from_millis, app_init_typed hu]
  rw [← h1, ← h2, ← h3, ← h4]

/-! ## Key-check helper lemmas -/

theorem check_keys_extra (cls : String) (m : List (String × Val))
    (allowed : List String) (h : extra_keys m allowed ≠ []) :
    check_keys cls (Val.dict m) allowed =
      Except.error (Err.unknownKeys cls (extra_keys m allowed)) := by
  show (match extra_keys m allowed with
        | [] => Except.ok m
        | ks => Except.error (Err.unknownKeys cls ks)) =
      Except.error (Err.unknownKeys cls (extra_keys m allowed))
  cases hek : extra_keys m allowed with
  | nil => exact absurd hek h
  | cons a as => rfl

/-! ## Claim theorems -/

/-- C6: parsing the shorthand file spec `{'archive': 'a/b/data.tar.gz'}`
yields the pair `(dest, File)` with `dest == 'data'` (final path segment
with the `.tar.gz` archive extension stripped), `type == 'ARCHIVE'`, and
`source == 'a/b/data.tar.gz'` (with the default visibility, size and
timestamp). -/
theorem c6_parse_shorthand_archive :
    File.parse_file_spec (Val.dict [("archive", Val.str "a/b/data.tar.gz")]) =
      Except.ok ("data", ⟨"a/b/data.tar.gz", "ARCHIVE", "APPLICATION", 0, 0⟩) := by
  decide

/-- C7 (code bug): a shorthand file spec without `dest` whose source path
ends in a path separator is NOT rejected.  CPython's `os.path.split`
returns an empty string (never `None`) for the final segment of a
directory path, so the source's `if name is None: raise ValueError(
"Distributed files must be files/archives, not directories")` guard is
dead code and the parse succeeds with the empty dest `''`. -/
theorem c7_directory_source_not_rejected :
    File.parse_file_spec (Val.dict [("file", Val.str "a/b/")]) =
      Except.ok ("", ⟨"a/b/", "FILE", "APPLICATION", 0, 0⟩) := by
  decide

/-- C10: the shorthand parser uppercases a lowercase `type` value on the
canonical-key path (any source string with `{'type': 'archive'}` parses to
a File with `type == 'ARCHIVE'`), whereas `File.from_dict` and the `File`
constructor reject `'archive'` by the enum-membership check, which accepts
only `'FILE'` and `'ARCHIVE'`. -/
theorem c10_lowercase_type_uppercased_only_in_parse :
    (∀ src : String,
      Except.map (fun p : String × File => p.2.type)
        (File.parse_file_spec
          (Val.dict [("source", Val.str src), ("type", Val.str "archive")])) =
        Except.ok "ARCHIVE") ∧
    File.from_dict (Val.dict [("source", Val.str "x"), ("type", Val.str "archive")]) =
      Except.error (Err.inSetErr "type") ∧
    File.init (Val.str "x") (Val.str "archive") (Val.str "APPLICATION")
      (Val.int 0) (Val.int 0) = Except.error (Err.inSetErr "type") := by
  refine ⟨fun src => rfl, by decide, by decide⟩

/-- C2: `Resources(memory=0, vcores=0)` constructs successfully (the
standalone validation minimum is 0 for both fields), but validating any
`Service` whose `resources` field holds that value fails, because
`Service._validate` re-validates the resources under the request rule
(minimum 1). -/
theorem c2_zero_resources_ok_standalone_fails_as_request :
    Resources.init (Val.int 0) (Val.int 0) = Except.ok ⟨0, 0⟩ ∧
    Resources.validate true ⟨0, 0⟩ = Except.error (Err.boundErr "vcores" 1) ∧
    (∀ s : Service, s.resources = ⟨0, 0⟩ → s.validate ≠ Except.ok ()) := by
  refine ⟨by decide, by decide, ?_⟩
  intro s h hok
  obtain ⟨_, h2, _, _, _⟩ := service_validate_ok.mp hok
  rw [h] at h2
  exact absurd h2 (by decide)

/-- C2 witness: the theorem applied at a concrete `Service` holding
`Resources(0, 0)`. -/
theorem c2_zero_resources_witness :
    Resources.init (Val.int 0) (Val.int 0) = Except.ok ⟨0, 0⟩ ∧
    Service.validate ⟨["c"], ⟨0, 0⟩, 1, [], [], []⟩ ≠ Except.ok () :=
  ⟨c2_zero_resources_ok_standalone_fails_as_request.1,
   c2_zero_resources_ok_standalone_fails_as_request.2.2 _ rfl⟩

/-- C3 (code bug): `Job.from_dict({'services': {}})` does fail, but with
the TypeError "name must be an instance of str" rather than the intended
emptiness error: `Job.from_dict` passes `name=obj.get('name')`, i.e.
`None`, overriding the constructor default `'skein'`, and the name type
check precedes the services emptiness check in `Job._validate`. -/
theorem c3_empty_services_fails_with_name_type_error :
    Job.from_dict (Val.dict [("services", Val.dict [])]) =
      Except.error (Err.typeErr "name" "str") ∧
    Job.from_dict (Val.dict [("name", Val.str "a"), ("services", Val.dict [])]) =
      Except.error (Err.emptyErr "There must be at least one service") := by
  exact ⟨by decide, by decide⟩

/-- C4 (code bug): the Base construct-from-mapping does fall back to
constructor defaults (e.g. `File.from_dict({'source': 'x'})` gets type
`'FILE'`, visibility `'APPLICATION'`, size and timestamp 0), but
`Job.from_dict` overrides the defaults by passing `name=None`,
`queue=None` explicitly, so a mapping containing only a valid `'services'`
entry fails with a name type error instead of producing a Job with
`name == 'skein'` and `queue == ''`. -/
theorem c4_job_from_dict_overrides_defaults :
    File.from_dict (Val.dict [("source", Val.str "x")]) =
      Except.ok ⟨"x", "FILE", "APPLICATION", 0, 0⟩ ∧
    Job.from_dict (Val.dict [("services", Val.dict [("s", Val.dict
      [("commands", Val.list [Val.str "c"]),
       ("resources", Val.dict [("memory", Val.int 1), ("vcores", Val.int 1)])])])]) =
      Except.error (Err.typeErr "name" "str") := by
  exact ⟨by decide, by decide⟩

/-- C9 (corrected): serializing `_datetime_from_millis(t)` back through
`_convert`'s datetime branch yields `t` MINUS the local timezone's UTC
offset (CPython's naive `timestamp()` interprets the value as local time),
not `t` plus the offset; the round-trip is the identity exactly when the
offset is zero.  The third conjunct grounds this in `ApplicationReport`:
a successful `to_protobuf` under offset `off` puts
`start_time - off` / `finish_time - off` on the wire. -/
theorem c9_millis_roundtrip_shifts_by_offset :
    (∀ off t : Int,
      datetime_timestamp_millis off (datetime_from_millis t) = t - off) ∧
    (∀ off : Int,
      (∀ t : Int, datetime_timestamp_millis off (datetime_from_millis t) = t)
        ↔ off = 0) ∧
    (∀ (off : Int) (a : ApplicationReport) (msg : ApplicationReportMsg),
      a.to_protobuf off = Except.ok msg →
      msg.start_time = a.start_time - off ∧
      msg.finish_time = a.finish_time - off) := by
  refine ⟨fun off t => rfl, fun off => ?_, ?_⟩
  · constructor
    · intro h
      have := h 0
      simp [datetime_timestamp_millis, datetime_from_millis] at this
      omega
    · intro h t
      simp [h, datetime_timestamp_millis, datetime_from_millis]
  · intro off a msg h
    unfold ApplicationReport.to_protobuf at h
    simp only [bind_eq_except_bind, bind_ok_iff] at h
    obtain ⟨u1, _, umsg, _, sc, _, fc, _, hok⟩ := h
    cases hok
    exact ⟨rfl, rfl⟩

/-- C9 counterexample: at local offset +1h (3600000 ms) and t = 0, the
serialized value is -3600000, not 0 + 3600000 as the claim's sign
states. -/
theorem c9_sign_counterexample :
    datetime_timestamp_millis 3600000 (datetime_from_millis 0) = -3600000 ∧
    datetime_timestamp_millis 3600000 (datetime_from_millis 0) ≠ 0 + 3600000 := by
  decide

/-- C9 witness: the wire-field conjunct applied at a concrete valid
report with offset 3600000. -/
theorem c9_offset_witness :
    (ApplicationReportMsg.mk "i" "n" "u" "q" [] "" 0 "" 4 1 0
        ⟨0, 0, 0, ⟨0, 0⟩, ⟨0, 0⟩, ⟨0, 0⟩⟩ "" (5 - 3600000) (7 - 3600000)).start_time =
      5 - 3600000 ∧
    (ApplicationReportMsg.mk "i" "n" "u" "q" [] "" 0 "" 4 1 0
        ⟨0, 0, 0, ⟨0, 0⟩, ⟨0, 0⟩, ⟨0, 0⟩⟩ "" (5 - 3600000) (7 - 3600000)).finish_time =
      7 - 3600000 :=
  c9_millis_roundtrip_shifts_by_offset.2.2 3600000
    ⟨"i", "n", "u", "q", [], Option.none, Option.none, Option.none,
     "RUNNING", "SUCCEEDED", 0, ⟨0, 0, 0, ⟨0, 0⟩, ⟨0, 0⟩, ⟨0, 0⟩⟩,
     Option.none, 5, 7⟩ _ (by decide)

/-- C8: for every entity type, any input mapping containing a key outside
the entity's allowed key set makes construct-from-mapping fail with the
schema error carrying exactly the offending keys (all of them, in one
error), before any construction; the first conjunct characterizes the
reported key list. -/
theorem c8_unknown_keys_all_reported :
    (∀ (m : List (String × Val)) (allowed : List String) (k : String),
      k ∈ extra_keys m allowed ↔ ((∃ w, (k, w) ∈ m) ∧ ¬ k ∈ allowed)) ∧
    (∀ m, extra_keys m Resources.slots ≠ [] →
      Resources.from_dict (Val.dict m) =
        Except.error (Err.unknownKeys "Resources" (extra_keys m Resources.slots))) ∧
    (∀ m, extra_keys m File.slots ≠ [] →
      File.from_dict (Val.dict m) =
        Except.error (Err.unknownKeys "File" (extra_keys m File.slots))) ∧
    (∀ m, extra_keys m Service.slots ≠ [] →
      Service.from_dict (Val.dict m) =
        Except.error (Err.unknownKeys "Service" (extra_keys m Service.slots))) ∧
    (∀ m, extra_keys m Job.slots ≠ [] →
      Job.from_dict (Val.dict m) =
        Except.error (Err.unknownKeys "Job" (extra_keys m Job.slots))) ∧
    (∀ m, extra_keys m rur_keys ≠ [] →
      ResourceUsageReport.from_dict (Val.dict m) =
        Except.error
          (Err.unknownKeys "ResourceUsageReport" (extra_keys m rur_keys))) ∧
    (∀ m, extra_keys m app_keys ≠ [] →
      ApplicationReport.from_dict (Val.dict m) =
        Except.error
          (Err.unknownKeys "ApplicationReport" (extra_keys m app_keys))) := by
  refine ⟨?_, ?_, ?_, ?_, ?_, ?_, ?_⟩
  · intro m allowed k
    simp only [extra_keys, List.mem_filter, List.mem_map, decide_eq_true_eq]
    constructor
    · rintro ⟨⟨p, hp, hk⟩, hna⟩
      refine ⟨⟨p.2, ?_⟩, hna⟩
      rw [← hk]
      exact hp
    · rintro ⟨⟨w, hw⟩, hna⟩
      exact ⟨⟨(k, w), hw, rfl⟩, hna⟩
  · intro m h
    simp only [Resources.from_dict, bind_eq_except_bind,
      check_keys_extra _ _ _ h, error_bind]
  · intro m h
    simp only [File.from_dict, bind_eq_except_bind,
      check_keys_extra _ _ _ h, error_bind]
  · intro m h
    simp only [Service.from_dict, bind_eq_except_bind,
      check_keys_extra _ _ _ h, error_bind]
  · intro m h
    simp only [Job.from_dict, bind_eq_except_bind,
      check_keys_extra _ _ _ h, error_bind]
  · intro m h
    simp only [ResourceUsageReport.from_dict, bind_eq_except_bind,
      check_keys_extra _ _ _ h, error_bind]
  · intro m h
    simp only [ApplicationReport.from_dict, bind_eq_except_bind,
      check_keys_extra _ _ _ h, error_bind]

/-- C8 witness: the spec's own example, `{'memory': 1, 'vcores': 1,
'bogus': 2}` for `Resources`, rejected with an error naming `bogus`. -/
theorem c8_unknown_keys_witness :
    Resources.from_dict (Val.dict
      [("memory", Val.int 1), ("vcores", Val.int 1), ("bogus", Val.int 2)]) =
      Except.error (Err.unknownKeys "Resources" ["bogus"]) := by
  have h := c8_unknown_keys_all_reported.2.1
    [("memory", Val.int 1), ("vcores", Val.int 1), ("bogus", Val.int 2)]
    (by decide)
  have he : extra_keys
      [("memory", Val.int 1), ("vcores", Val.int 1), ("bogus", Val.int 2)]
      Resources.slots = ["bogus"] := by decide
  rw [he] at h
  exact h

theorem resources_from_protobuf_ok {msg : ResourcesMsg} {r : Resources}
    (h : Resources.from_protobuf msg = Except.ok r) :
    r = ⟨msg.memory, msg.vcores⟩ := by
  unfold Resources.from_protobuf at h
  obtain ⟨hm, hv, _, _⟩ := resources_init_ok.mp h
  injection hm with hm
  injection hv with hv
  cases r
  simp_all

/-- C5 (corrected): on the mapping path, `ResourceUsageReport` clamps
`numUsedContainers` and the nested `Resources` fields with `max(0, ·)`,
but NOT `memorySeconds`/`vcoreSeconds` — a negative value there is
rejected by validation instead of clamped; on the wire path nothing is
clamped (every field is taken verbatim, validation rejecting negatives). -/
theorem c5_mapping_clamps_only_some_fields :
    (∀ ms vs nc nm nv rm rv um uv : Int,
      ResourceUsageReport.from_dict (Val.dict
        [("memorySeconds", Val.int ms), ("vcoreSeconds", Val.int vs),
         ("numUsedContainers", Val.int nc),
         ("neededResources",
           Val.dict [("memory", Val.int nm), ("vcores", Val.int nv)]),
         ("reservedResources",
           Val.dict [("memory", Val.int rm), ("vcores", Val.int rv)]),
         ("usedResources",
           Val.dict [("memory", Val.int um), ("vcores", Val.int uv)])]) =
        (if ms < 0 then Except.error (Err.boundErr "memory_seconds" 0)
         else if vs < 0 then Except.error (Err.boundErr "vcore_seconds" 0)
         else Except.ok ⟨ms, vs, max 0 nc, ⟨max 0 nm, max 0 nv⟩,
           ⟨max 0 rm, max 0 rv⟩, ⟨max 0 um, max 0 uv⟩⟩)) ∧
    (∀ (msg : ResourceUsageReportMsg) (u : ResourceUsageReport),
      ResourceUsageReport.from_protobuf msg = Except.ok u →
      u = ⟨msg.memory_seconds, msg.vcore_seconds, msg.num_used_containers,
        ⟨msg.needed_resources.memory, msg.needed_resources.vcores⟩,
        ⟨msg.reserved_resources.memory, msg.reserved_resources.vcores⟩,
        ⟨msg.used_resources.memory, msg.used_resources.vcores⟩⟩) := by
  constructor
  · intro ms vs nc nm nv rm rv um uv
    have hneed : rur_resources_field
        [("memorySeconds", Val.int ms), ("vcoreSeconds", Val.int vs),
         ("numUsedContainers", Val.int nc),
         ("neededResources",
           Val.dict [("memory", Val.int nm), ("vcores", Val.int nv)]),
         ("reservedResources",
           Val.dict [("memory", Val.int rm), ("vcores", Val.int rv)]),
         ("usedResources",
           Val.dict [("memory", Val.int um), ("vcores", Val.int uv)])]
        "neededResources" = Except.ok ⟨max 0 nm, max 0 nv⟩ := by
      have step : rur_resources_field
          [("memorySeconds", Val.int ms), ("vcoreSeconds", Val.int vs),
           ("numUsedContainers", Val.int nc),
           ("neededResources",
             Val.dict [("memory", Val.int nm), ("vcores", Val.int nv)]),
           ("reservedResources",
             Val.dict [("memory", Val.int rm), ("vcores", Val.int rv)]),
           ("usedResources",
             Val.dict [("memory", Val.int um), ("vcores", Val.int uv)])]
          "neededResources" =
          Resources.init (Val.int (max 0 nm)) (Val.int (max 0 nv)) := rfl
      rw [step]
      exact resources_init_ok.mpr ⟨rfl, rfl, le_max_left 0 nm, le_max_left 0 nv⟩
    have hres : rur_resources_field
        [("memorySeconds", Val.int ms), ("vcoreSeconds", Val.int vs),
         ("numUsedContainers", Val.int nc),
         ("neededResources",
           Val.dict [("memory", Val.int nm), ("vcores", Val.int nv)]),
         ("reservedResources",
           Val.dict [("memory", Val.int rm), ("vcores", Val.int rv)]),
         ("usedResources",
           Val.dict [("memory", Val.int um), ("vcores", Val.int uv)])]
        "reservedResources" = Except.ok ⟨max 0 rm, max 0 rv⟩ := by
      have step : rur_resources_field
          [("memorySeconds", Val.int ms), ("vcoreSeconds", Val.int vs),
           ("numUsedContainers", Val.int nc),
           ("neededResources",
             Val.dict [("memory", Val.int nm), ("vcores", Val.int nv)]),
           ("reservedResources",
             Val.dict [("memory", Val.int rm), ("vcores", Val.int rv)]),
           ("usedResources",
             Val.dict [("memory", Val.int um), ("vcores", Val.int uv)])]
          "reservedResources" =
          Resources.init (Val.int (max 0 rm)) (Val.int (max 0 rv)) := rfl
      rw [step]
      exact resources_init_ok.mpr ⟨rfl, rfl, le_max_left 0 rm, le_max_left 0 rv⟩
    have hused : rur_resources_field
        [("memorySeconds", Val.int ms), ("vcoreSeconds", Val.int vs),
         ("numUsedContainers", Val.int nc),
         ("neededResources",
           Val.dict [("memory", Val.int nm), ("vcores", Val.int nv)]),
         ("reservedResources",
           Val.dict [("memory", Val.int rm), ("vcores", Val.int rv)]),
         ("usedResources",
           Val.dict [("memory", Val.int um), ("vcores", Val.int uv)])]
        "usedResources" = Except.ok ⟨max 0 um, max 0 uv⟩ := by
      have step : rur_resources_field
          [("memorySeconds", Val.int ms), ("vcoreSeconds", Val.int vs),
           ("numUsedContainers", Val.int nc),
           ("neededResources",
             Val.dict [("memory", Val.int nm), ("vcores", Val.int nv)]),
           ("reservedResources",
             Val.dict [("memory", Val.int rm), ("vcores", Val.int rv)]),
           ("usedResources",
             Val.dict [("memory", Val.int um), ("vcores", Val.int uv)])]
          "usedResources" =
          Resources.init (Val.int (max 0 um)) (Val.int (max 0 uv)) := rfl
      rw [step]
      exact resources_init_ok.mpr ⟨rfl, rfl, le_max_left 0 um, le_max_left 0 uv⟩
    have step2 : ResourceUsageReport.from_dict (Val.dict
        [("memorySeconds", Val.int ms), ("vcoreSeconds", Val.int vs),
         ("numUsedContainers", Val.int nc),
         ("neededResources",
           Val.dict [("memory", Val.int nm), ("vcores", Val.int nv)]),
         ("reservedResources",
           Val.dict [("memory", Val.int rm), ("vcores", Val.int rv)]),
         ("usedResources",
           Val.dict [("memory", Val.int um), ("vcores", Val.int uv)])]) =
        Except.bind (rur_resources_field
          [("memorySeconds", Val.int ms), ("vcoreSeconds", Val.int vs),
           ("numUsedContainers", Val.int nc),
           ("neededResources",
             Val.dict [("memory", Val.int nm), ("vcores", Val.int nv)]),
           ("reservedResources",
             Val.dict [("memory", Val.int rm), ("vcores", Val.int rv)]),
           ("usedResources",
             Val.dict [("memory", Val.int um), ("vcores", Val.int uv)])]
          "neededResources") (fun need =>
        Except.bind (rur_resources_field
          [("memorySeconds", Val.int ms), ("vcoreSeconds", Val.int vs),
           ("numUsedContainers", Val.int nc),
           ("neededResources",
             Val.dict [("memory", Val.int nm), ("vcores", Val.int nv)]),
           ("reservedResources",
             Val.dict [("memory", Val.int rm), ("vcores", Val.int rv)]),
           ("usedResources",
             Val.dict [("memory", Val.int um), ("vcores", Val.int uv)])]
          "reservedResources") (fun resv =>
        Except.bind (rur_resources_field
          [("memorySeconds", Val.int ms), ("vcoreSeconds", Val.int vs),
           ("numUsedContainers", Val.int nc),
           ("neededResources",
             Val.dict [("memory", Val.int nm), ("vcores", Val.int nv)]),
           ("reservedResources",
             Val.dict [("memory", Val.int rm), ("vcores", Val.int rv)]),
           ("usedResources",
             Val.dict [("memory", Val.int um), ("vcores", Val.int uv)])]
          "usedResources") (fun used =>
        ResourceUsageReport.init (Val.int ms) (Val.int vs)
          (Val.int (max 0 nc)) (Val.res need) (Val.res resv)
          (Val.res used)))) := rfl
    rw [step2, hneed, ok_bind, hres, ok_bind, hused, ok_bind]
    by_cases hms : ms < 0
    · rw [if_pos hms]
      simp only [ResourceUsageReport.init, bind_eq_except_bind,
        as_bounded_int, if_pos hms, error_bind]
    · rw [if_neg hms]
      by_cases hvs : vs < 0
      · rw [if_pos hvs]
        simp only [ResourceUsageReport.init, bind_eq_except_bind,
          as_bounded_int, if_neg hms, ok_bind, if_pos hvs, error_bind]
      · rw [if_neg hvs]
        exact @rur_init_of_valid ⟨ms, vs, max 0 nc, ⟨max 0 nm, max 0 nv⟩,
          ⟨max 0 rm, max 0 rv⟩, ⟨max 0 um, max 0 uv⟩⟩ (rur_validate_ok.mpr
          ⟨by show (0 : Int) ≤ ms; omega, by show (0 : Int) ≤ vs; omega,
           le_max_left 0 nc,
           ⟨le_max_left 0 nv, le_max_left 0 nm⟩,
           ⟨le_max_left 0 rv, le_max_left 0 rm⟩,
           ⟨le_max_left 0 uv, le_max_left 0 um⟩⟩)
  · intro msg u h
    unfold ResourceUsageReport.from_protobuf at h
    simp only [bind_eq_except_bind, bind_ok_iff] at h
    obtain ⟨nr, hnr, rr, hrr, ur, hur, hinit⟩ := h
    have hnr2 := resources_from_protobuf_ok hnr
    have hrr2 := resources_from_protobuf_ok hrr
    have hur2 := resources_from_protobuf_ok hur
    unfold ResourceUsageReport.init at hinit
    simp only [bind_eq_except_bind, bind_ok_iff] at hinit
    obtain ⟨ms2, hms, vs2, hvs, nc2, hnc, nr2, hnrx, u1, _, rr2, hrrx, u2, _,
      ur2, hurx, u3, _, hok⟩ := hinit
    obtain ⟨hmse, _⟩ := as_bounded_int_ok.mp hms
    obtain ⟨hvse, _⟩ := as_bounded_int_ok.mp hvs
    obtain ⟨hnce, _⟩ := as_bounded_int_ok.mp hnc
    injection hmse with hmse
    injection hvse with hvse
    injection hnce with hnce
    have hnre := as_resources_ok.mp hnrx
    have hrre := as_resources_ok.mp hrrx
    have hure := as_resources_ok.mp hurx
    injection hnre with hnre
    injection hrre with hrre
    injection hure with hure
    cases hok
    subst hnr2 hrr2 hur2
    simp_all

/-- C5 counterexample: a mapping with `memorySeconds = -1` (all other
fields valid) is REJECTED by `ResourceUsageReport.from_dict` with the
bound error on `memory_seconds` — it is not clamped to 0 as the claim
("clamps every negative integer field") states. -/
theorem c5_memory_seconds_not_clamped :
    ResourceUsageReport.from_dict (Val.dict
      [("memorySeconds", Val.int (-1)), ("vcoreSeconds", Val.int 0),
       ("numUsedContainers", Val.int 0),
       ("neededResources", Val.dict [("memory", Val.int 0), ("vcores", Val.int 0)]),
       ("reservedResources", Val.dict [("memory", Val.int 0), ("vcores", Val.int 0)]),
       ("usedResources", Val.dict [("memory", Val.int 0), ("vcores", Val.int 0)])]) =
      Except.error (Err.boundErr "memory_seconds" 0) := by
  decide

/-- C5 witness: the amended theorem applied at concrete inputs — the
mapping path clamps `numUsedContainers` and nested vcores to 0 while
passing the non-negative seconds fields through, and the wire path
reproduces a message verbatim. -/
theorem c5_clamping_witness :
    ResourceUsageReport.from_dict (Val.dict
      [("memorySeconds", Val.int 1), ("vcoreSeconds", Val.int 2),
       ("numUsedContainers", Val.int (-3)),
       ("neededResources", Val.dict [("memory", Val.int 3), ("vcores", Val.int (-4))]),
       ("reservedResources", Val.dict [("memory", Val.int 5), ("vcores", Val.int 6)]),
       ("usedResources", Val.dict [("memory", Val.int 7), ("vcores", Val.int 8)])]) =
      Except.ok ⟨1, 2, 0, ⟨3, 0⟩, ⟨5, 6⟩, ⟨7, 8⟩⟩ ∧
    (⟨9, 10, 11, ⟨12, 13⟩, ⟨14, 15⟩, ⟨16, 17⟩⟩ : ResourceUsageReport) =
      ⟨9, 10, 11, ⟨12, 13⟩, ⟨14, 15⟩, ⟨16, 17⟩⟩ :=
  ⟨(c5_mapping_clamps_only_some_fields.1 1 2 (-3) 3 (-4) 5 6 7 8).trans
      (by decide),
   c5_mapping_clamps_only_some_fields.2 ⟨9, 10, 11, ⟨12, 13⟩, ⟨14, 15⟩,
      ⟨16, 17⟩⟩ ⟨9, 10, 11, ⟨12, 13⟩, ⟨14, 15⟩, ⟨16, 17⟩⟩ (by decide)⟩

/-- C1 (corrected): the wire round-trip law
`E.from_protobuf(E.from_dict(m).to_protobuf()) == E.from_dict(m)` holds
unconditionally for `Resources`, `File`, `Service` and
`ResourceUsageReport`; for `Job` it holds when the constructed job's
nullable `queue` is non-null (a `None` queue is dropped by the wire
constructor, deserializing as `''`); for `ApplicationReport` it holds when
the nullable fields are non-null, `state`/`final_status` are canonical
enum names, and the local UTC offset is zero (`to_protobuf` serializes
the naive datetimes through local-time `timestamp()`). -/
theorem c1_wire_roundtrip_amended :
    (∀ (v : Val) (r : Resources), Resources.from_dict v = Except.ok r →
      Except.bind r.to_protobuf Resources.from_protobuf = Except.ok r) ∧
    (∀ (v : Val) (f : File), File.from_dict v = Except.ok f →
      Except.bind f.to_protobuf File.from_protobuf = Except.ok f) ∧
    (∀ (v : Val) (s : Service), Service.from_dict v = Except.ok s →
      Except.bind s.to_protobuf Service.from_protobuf = Except.ok s) ∧
    (∀ (v : Val) (j : Job), Job.from_dict v = Except.ok j →
      j.queue ≠ Option.none →
      Except.bind j.to_protobuf Job.from_protobuf = Except.ok j) ∧
    (∀ (v : Val) (u : ResourceUsageReport),
      ResourceUsageReport.from_dict v = Except.ok u →
      Except.bind u.to_protobuf ResourceUsageReport.from_protobuf =
        Except.ok u) ∧
    (∀ (v : Val) (a : ApplicationReport),
      ApplicationReport.from_dict v = Except.ok a →
      a.host ≠ Option.none → a.port ≠ Option.none →
      a.tracking_url ≠ Option.none → a.diagnostics ≠ Option.none →
      (appStateValue a.state).isSome →
      (finalStatusValue a.final_status).isSome →
      Except.bind (a.to_protobuf 0) ApplicationReport.from_protobuf =
        Except.ok a) := by
  refine ⟨?_, ?_, ?_, ?_, ?_, ?_⟩
  · intro v r h
    obtain ⟨hm, hv⟩ := resources_from_dict_sound h
    exact resources_roundtrip hm hv
  · intro v f h
    exact file_roundtrip (file_from_dict_sound h)
  · intro v s h
    obtain ⟨msg, h1, h2⟩ := service_roundtrip (service_from_dict_sound h)
    rw [h1, ok_bind]
    exact h2
  · intro v j h hq
    cases hqe : j.queue with
    | none => exact absurd hqe hq
    | some q => exact job_roundtrip (job_from_dict_sound h) hqe
  · intro v u h
    obtain ⟨msg, h1, h2⟩ := rur_roundtrip (rur_from_dict_sound h)
    rw [h1, ok_bind]
    exact h2
  · intro v a h hho hpo htu hdg hst hfs
    cases hhoe : a.host with
    | none => exact absurd hhoe hho
    | some ho =>
    cases hpoe : a.port with
    | none => exact absurd hpoe hpo
    | some po =>
    cases htue : a.tracking_url with
    | none => exact absurd htue htu
    | some tu =>
    cases hdge : a.diagnostics with
    | none => exact absurd hdge hdg
    | some dg =>
    obtain ⟨sc, hsc⟩ := Option.isSome_iff_exists.mp hst
    obtain ⟨fc, hfc⟩ := Option.isSome_iff_exists.mp hfs
    exact app_roundtrip (app_from_dict_sound h) hhoe hpoe htue hdge hsc hfc

/-- C1 counterexample: for the valid mapping
`{'name': 'a', 'services': {'s': {...}}}` (no `'queue'` key), the
constructed Job has `queue is None`, but the wire round trip returns a Job
with `queue == ''`; under the structural equality of the base contract the
two are NOT equal. -/
theorem c1_queue_none_roundtrip_fails :
    Job.from_dict (Val.dict [("name", Val.str "a"), ("services", Val.dict
      [("s", Val.dict [("commands", Val.list [Val.str "c"]),
        ("resources",
          Val.dict [("memory", Val.int 1), ("vcores", Val.int 1)])])])]) =
      Except.ok ⟨"a", Option.none, [("s", ⟨["c"], ⟨1, 1⟩, 1, [], [], []⟩)]⟩ ∧
    Except.bind
        (Job.to_protobuf ⟨"a", Option.none, [("s", ⟨["c"], ⟨1, 1⟩, 1, [], [], []⟩)]⟩)
        Job.from_protobuf =
      Except.ok ⟨"a", some "", [("s", ⟨["c"], ⟨1, 1⟩, 1, [], [], []⟩)]⟩ ∧
    (⟨"a", some "", [("s", ⟨["c"], ⟨1, 1⟩, 1, [], [], []⟩)]⟩ : Job) ≠
      ⟨"a", Option.none, [("s", ⟨["c"], ⟨1, 1⟩, 1, [], [], []⟩)]⟩ := by
  refine ⟨by decide, by decide, by decide⟩

/-- C1 witness: the amended law applied at concrete mappings for
`Resources` and for a `Job` whose mapping does provide a queue. -/
theorem c1_roundtrip_witness :
    Except.bind (Resources.to_protobuf ⟨1, 2⟩) Resources.from_protobuf =
      Except.ok ⟨1, 2⟩ ∧
    Except.bind
        (Job.to_protobuf ⟨"a", some "q", [("s", ⟨["c"], ⟨1, 1⟩, 1, [], [], []⟩)]⟩)
        Job.from_protobuf =
      Except.ok ⟨"a", some "q", [("s", ⟨["c"], ⟨1, 1⟩, 1, [], [], []⟩)]⟩ :=
  ⟨c1_wire_roundtrip_amended.1
      (Val.dict [("memory", Val.int 1), ("vcores", Val.int 2)]) ⟨1, 2⟩
      (by decide),
   c1_wire_roundtrip_amended.2.2.2.1
      (Val.dict [("name", Val.str "a"), ("queue", Val.str "q"),
        ("services", Val.dict [("s", Val.dict
          [("commands", Val.list [Val.str "c"]),
           ("resources",
             Val.dict [("memory", Val.int 1), ("vcores", Val.int 1)])])])])
      ⟨"a", some "q", [("s", ⟨["c"], ⟨1, 1⟩, 1, [], [], []⟩)]⟩ (by decide)
      (by decide)⟩
